import Mathlib

/-!
# F1 Slack topic (`main.go`): embedding and verified properties

The program fetches three resources (next race, driver standings, constructor
standings) and renders them either as a multi-line report (`Topic`) or as a
single line bounded to 250 bytes (`SlackTopic`).

Conventions of the embedding:

* a Go `string` is a sequence of bytes; `Str` is the list of these bytes, each
  carried by the `Char` of the same code, so `List.length` is Go's `len`.  All
  literals of the program are ASCII text except one (`saoPaulo` below);
* Go's `int` is `Int`; `%d` is `fmtInt`;
* a Go `error` is its message (what `%v` prints);
* the results of the three fetchers are the arguments of the renderers, and the
  year returned by `time.Now().Year()` is an argument too;
* the parts of the Go standard library that the program calls and that are not
  string plumbing (`time.Parse`, `Time.Format`, `Time.AddDate`, `Time.Day`, the
  `%.0f` and `%.1f` verbs on a `float64`, the non-ASCII path of
  `strings.ToLower`) are the fields of `GoLib`, a parameter of the renderers;
* the fetchers are functions of what the network returned (`HttpOutcome`), and
  the calls of `json.Unmarshal` are the fields of `JsonLib`, their parameter.
-/

namespace F1Topic

/-! ## Strings -/

/-- A Go string, byte by byte. -/
abbrev Str := List Char

/-- Go `strings.HasPrefix(s, prefix)`. -/
def HasPrefix (s pre : Str) : Bool := pre.isPrefixOf s

/-- Go `strings.Contains(s, substr)`: `substr` occurs at some offset of `s`. -/
def Contains : Str → Str → Bool
  | [], substr => substr.isEmpty
  | c :: s, substr => HasPrefix (c :: s) substr || Contains s substr

/-- Go `strings.Split(s, sep)` for a one-byte separator (the program only splits
on `" "`): the pieces between consecutive separators, empty pieces included;
the result always has at least one piece. -/
def Split : Str → Char → List Str
  | [], _ => [[]]
  | c :: s, sep =>
    if c = sep then [] :: Split s sep
    else
      match Split s sep with
      | [] => [[c]]
      | p :: ps => (c :: p) :: ps

/-- Go `strings.Join(elems, sep)`. -/
def Join : List Str → Str → Str
  | [], _ => []
  | [p], _ => p
  | p :: q :: ps, sep => p ++ sep ++ Join (q :: ps) sep

/-- Go slice expression `a[lo:hi]`, used by the program only under guards that
make `lo ≤ hi ≤ len(a)`. -/
def slice {α : Type} (a : List α) (lo hi : Nat) : List α := (a.take hi).drop lo

/-- Go `%d` on a non-negative integer. -/
def fmtNat (n : Nat) : Str := Nat.toDigits 10 n

/-- Go `%d` on an `int`. -/
def fmtInt : Int → Str
  | Int.ofNat n => fmtNat n
  | Int.negSucc n => '-' :: fmtNat (n + 1)

/-! ## Race name normaliser (`extractRaceName`) -/

/-- The bytes of the one non-ASCII literal of `extractRaceName`, as they stand
in the source file: `S`, `C3 83`, `C2 A3`, `o Paulo`. -/
def saoPaulo : Str :=
  ['S', Char.ofNat 0xC3, Char.ofNat 0x83, Char.ofNat 0xC2, Char.ofNat 0xA3, 'o', ' ',
   'P', 'a', 'u', 'l', 'o']

/-- The word-trim fallback of `extractRaceName` (the code after the chain of
tests): split on the space byte, drop the first piece and the last two. -/
def extractRaceNameFallback (fullName : Str) : Str :=
  let parts := Split fullName ' '
  if parts.length > 2 then
    Join (slice parts 1 (parts.length - 2)) " ".toList
  else fullName

/-- Embedding of `extractRaceName`. -/
def extractRaceName (fullName : Str) : Str :=
  if Contains fullName "Japanese".toList then "Japan".toList
  else if Contains fullName "Chinese".toList then "China".toList
  else if Contains fullName "Monaco".toList then "Monaco".toList
  else if Contains fullName "British".toList then "Britain".toList
  else if Contains fullName "Italian".toList then "Italy".toList
  else if Contains fullName "Spanish".toList then "Spain".toList
  else if Contains fullName "Australian".toList then "Australia".toList
  else if Contains fullName "Hungarian".toList then "Hungary".toList
  else if Contains fullName "Belgian".toList then "Belgium".toList
  else if Contains fullName "Dutch".toList then "Netherlands".toList
  else if Contains fullName "United States".toList || Contains fullName "USA".toList then
    "USA".toList
  else if Contains fullName "Mexico".toList || Contains fullName "Mexican".toList then
    "Mexico".toList
  else if Contains fullName "Brazil".toList || Contains fullName "Brazilian".toList
      || Contains fullName saoPaulo then
    "Brazil".toList
  else if Contains fullName "Abu Dhabi".toList then "Abu Dhabi".toList
  else if Contains fullName "Qatar".toList then "Qatar".toList
  else if Contains fullName "Singapore".toList then "Singapore".toList
  else if Contains fullName "Saudi".toList || Contains fullName "Jeddah".toList then
    "Saudi Arabia".toList
  else if Contains fullName "Bahrain".toList then "Bahrain".toList
  else if Contains fullName "Miami".toList then "Miami".toList
  else if Contains fullName "Las Vegas".toList then "Las Vegas".toList
  else if Contains fullName "Canada".toList || Contains fullName "Canadian".toList
      || Contains fullName "Montreal".toList then
    "Canada".toList
  else if Contains fullName "Azerbaijan".toList || Contains fullName "Baku".toList then
    "Azerbaijan".toList
  else extractRaceNameFallback fullName

/-! ## Data model (the JSON records of `main.go`) -/

/-- A Go `float64`, as its 64 bits; the program only stores and prints it. -/
structure Float64 where
  bits : Nat := 0
deriving DecidableEq, Repr

/-- Go `TimeInfo`. -/
structure TimeInfo where
  Date : Str := []
  Time : Str := []
deriving DecidableEq, Repr

/-- Go `Schedule`. -/
structure Schedule where
  Race : TimeInfo := {}
  Qualy : TimeInfo := {}
deriving DecidableEq, Repr

/-- Go `Circuit`. -/
structure Circuit where
  CircuitID : Str := []
  CircuitName : Str := []
  Length : Float64 := {}
  Laps : Int := 0
  Laprecord : Str := []
deriving DecidableEq, Repr

/-- Go `Race`. -/
structure Race where
  RaceID : Str := []
  ChampionshipID : Str := []
  RaceName : Str := []
  Schedule : Schedule := {}
  Circuit : Circuit := {}
  Country : Str := []
  Sprint : Bool := false
deriving DecidableEq, Repr

/-- Go `Driver`. -/
structure Driver where
  Name : Str := []
  Surname : Str := []
  Nationality : Str := []
  Birthday : Str := []
  Number : Int := 0
  ShortName : Str := []
  URL : Str := []
deriving DecidableEq, Repr

/-- Go `Team`. -/
structure Team where
  TeamID : Str := []
  TeamName : Str := []
  Country : Str := []
  FirstAppearance : Int := 0
  ConstructorsChampionships : Int := 0
  DriversChampionships : Int := 0
  URL : Str := []
deriving DecidableEq, Repr

/-- Go `DriverStanding`. -/
structure DriverStanding where
  ClassificationID : Int := 0
  DriverID : Str := []
  TeamID : Str := []
  Points : Float64 := {}
  Position : Int := 0
  Wins : Int := 0
  Driver : Driver := {}
  Team : Team := {}
deriving DecidableEq, Repr

/-- Go `TeamStanding`. -/
structure TeamStanding where
  ClassificationID : Int := 0
  TeamID : Str := []
  Points : Float64 := {}
  Position : Int := 0
  Wins : Int := 0
  Team : Team := {}
deriving DecidableEq, Repr

/-- Outcome of `fetchNextRace`: the error, or the race and its round number. -/
abbrev NextRaceResult := Except Str (Race × Int)

/-- Outcome of `fetchDriverStandings`. -/
abbrev DriversResult := Except Str (List DriverStanding)

/-- Outcome of `fetchTeamStandings`. -/
abbrev TeamsResult := Except Str (List TeamStanding)

/-! ## The standard-library functions the renderers call -/

/-- The library calls of the renderers that the embedding does not define. -/
structure GoLib where
  /-- Go `time.Time`. -/
  Time : Type
  /-- The result of `time.Parse("2006-01-02", s)`, `none` when it returns an error. -/
  parseDate : Str → Option Time
  /-- The result of `time.Parse("15:04:05Z", s)`, `none` when it returns an error. -/
  parseClock : Str → Option Time
  /-- Go `t.AddDate(years, months, days)`. -/
  addDate : Time → Int → Int → Int → Time
  /-- Go `t.Day()`. -/
  day : Time → Int
  /-- Go `t.Format("Jan")`. -/
  formatJan : Time → Str
  /-- Go `t.Format("January 2, 2006")`. -/
  formatLongDate : Time → Str
  /-- Go `t.Format("15:04 MST")`. -/
  formatClock : Time → Str
  /-- The verb `%.0f` on a `float64`. -/
  fmtF0 : Float64 → Str
  /-- The verb `%.1f` on a `float64`. -/
  fmtF1 : Float64 → Str
  /-- What `strings.ToLower` returns on a string with a byte above `0x7F`. -/
  toLowerNonASCII : Str → Str

/-- Lower-casing of one ASCII byte. -/
def lowerByte (c : Char) : Char :=
  if 65 ≤ c.toNat ∧ c.toNat ≤ 90 then Char.ofNat (c.toNat + 32) else c

/-- Go `strings.ToLower`: byte-wise on an all-ASCII string, the library's
Unicode mapping otherwise. -/
def ToLower (L : GoLib) (s : Str) : Str :=
  if s.all (fun c => c.toNat < 0x80) then s.map lowerByte else L.toLowerNonASCII s

/-! ## Lookup tables -/

/-- The table `teamEmojis`: team id to (emoji, abbreviation). -/
def teamEmojis : List (Str × (Str × Str)) :=
  [ ("mclaren".toList, (":m1::f1tl:".toList, "MCL".toList)),
    ("mercedes".toList, (":f1tm:".toList, "MER".toList)),
    ("red_bull".toList, (":f1tr:".toList, "RBR".toList)),
    ("ferrari".toList, (":f1tf:".toList, "FER".toList)),
    ("aston_martin".toList, (":f1ta:".toList, "AST".toList)),
    ("williams".toList, (":f1tw:".toList, "WIL".toList)),
    ("alpine".toList, (":f1ta:".toList, "ALP".toList)),
    ("haas".toList, (":f1th:".toList, "HAA".toList)),
    ("rb".toList, (":f1tb:".toList, "RB".toList)),
    ("sauber".toList, (":f1ts:".toList, "SAU".toList)) ]

/-- The table `driverEmojis`: driver id to emoji. -/
def driverEmojis : List (Str × Str) :=
  [ ("norris".toList, ":f1ln:".toList),
    ("max_verstappen".toList, ":f1mv:".toList),
    ("russell".toList, ":f1gr:".toList),
    ("piastri".toList, ":f1op:".toList),
    ("hamilton".toList, ":f1lh:".toList),
    ("leclerc".toList, ":f1cl:".toList),
    ("sainz".toList, ":f1cs:".toList),
    ("alonso".toList, ":f1fa:".toList),
    ("stroll".toList, ":f1ls:".toList),
    ("albon".toList, ":f1aa:".toList),
    ("tsunoda".toList, ":f1yt:".toList),
    ("hulkenberg".toList, ":f1nh:".toList),
    ("ocon".toList, ":f1eo:".toList),
    ("gasly".toList, ":f1pg:".toList) ]

/-- The table `countryFlags`: nationality to flag emoji. -/
def countryFlags : List (Str × Str) :=
  [ ("Great Britain".toList, ":gb:".toList),
    ("Netherlands".toList, ":flag-nl:".toList),
    ("Australia".toList, ":flag-au:".toList),
    ("Monaco".toList, ":flag-mc:".toList),
    ("Spain".toList, ":flag-es:".toList),
    ("Mexico".toList, ":flag-mx:".toList),
    ("Canada".toList, ":flag-ca:".toList),
    ("Japan".toList, ":flag-jp:".toList),
    ("France".toList, ":flag-fr:".toList),
    ("Thailand".toList, ":flag-th:".toList),
    ("China".toList, ":flag-cn:".toList),
    ("United States".toList, ":flag-us:".toList),
    ("Italy".toList, ":flag-it:".toList),
    ("Germany".toList, ":flag-de:".toList) ]

/-- The table `countryTwoLetterCodes`: country to two-letter code. -/
def countryTwoLetterCodes : List (Str × Str) :=
  [ ("China".toList, "cn".toList),
    ("Japan".toList, "jp".toList),
    ("Great Britain".toList, "gb".toList),
    ("United Kingdom".toList, "gb".toList),
    ("United States".toList, "us".toList),
    ("USA".toList, "us".toList),
    ("Australia".toList, "au".toList),
    ("Netherlands".toList, "nl".toList),
    ("Italy".toList, "it".toList),
    ("France".toList, "fr".toList),
    ("Germany".toList, "de".toList),
    ("Spain".toList, "es".toList),
    ("Monaco".toList, "mc".toList),
    ("Canada".toList, "ca".toList),
    ("Mexico".toList, "mx".toList),
    ("Brazil".toList, "br".toList),
    ("Austria".toList, "at".toList),
    ("Belgium".toList, "be".toList),
    ("Hungary".toList, "hu".toList),
    ("Singapore".toList, "sg".toList),
    ("Russia".toList, "ru".toList),
    ("Azerbaijan".toList, "az".toList),
    ("Bahrain".toList, "bh".toList),
    ("United Arab Emirates".toList, "ae".toList),
    ("Abu Dhabi".toList, "ae".toList),
    ("Qatar".toList, "qa".toList),
    ("Saudi Arabia".toList, "sa".toList),
    ("Thailand".toList, "th".toList),
    ("Switzerland".toList, "ch".toList) ]

/-- Go map index `m[k]` in its two-result form: the value and whether the key
is present. -/
def mapGet {β : Type} (m : List (Str × β)) (k : Str) : Option β := m.lookup k

/-! ## Compact renderer (`SlackTopic`) -/

/-- The constant `totalRaces` of `SlackTopic`. -/
def totalRaces : Int := 24

/-- The country code of the flag emoji (the `countryCode` variable of
`SlackTopic`, computed once the race date has parsed). -/
def countryCode (L : GoLib) (nextRace : Race) : Str :=
  let raceName := extractRaceName nextRace.RaceName
  if raceName = "Japan".toList
      || Contains (ToLower L nextRace.RaceName) "japanese".toList then
    "jp".toList
  else if raceName = "China".toList
      || Contains (ToLower L nextRace.RaceName) "chinese".toList then
    "cn".toList
  else if nextRace.Country.length > 0 then
    match mapGet countryTwoLetterCodes nextRace.Country with
    | some code => code
    | none =>
      if nextRace.Country.length ≥ 2 then ToLower L (slice nextRace.Country 0 2)
      else "unknown".toList
  else "unknown".toList

/-- What `SlackTopic` writes for the next race. -/
def slackNextRace (L : GoLib) (next : NextRaceResult) : Str :=
  match next with
  | .error _ => "Next: No upcoming races // ".toList
  | .ok (nextRace, round) =>
    match L.parseDate nextRace.Schedule.Race.Date with
    | none =>
      "Next: R".toList ++ fmtInt round ++ "/".toList ++ fmtInt totalRaces ++ " ".toList
        ++ extractRaceName nextRace.RaceName ++ " // ".toList
    | some raceDate =>
      let raceWeekendStart := L.addDate raceDate 0 0 (-2)
      "Next: R".toList ++ fmtInt round ++ "/".toList ++ fmtInt totalRaces ++ " ".toList
        ++ extractRaceName nextRace.RaceName ++ " :flag-".toList ++ countryCode L nextRace
        ++ ": (".toList ++ L.formatJan raceWeekendStart ++ " ".toList
        ++ fmtInt (L.day raceWeekendStart) ++ "-".toList ++ fmtInt (L.day raceDate)
        ++ ") // ".toList

/-- One driver entry of the compact line: `"%s%s %s (%.0f)"`. -/
def slackDriverEntry (L : GoLib) (driver : DriverStanding) : Str :=
  let driverEmoji :=
    match mapGet driverEmojis driver.DriverID with
    | some emoji => emoji
    | none => []
  let flagEmoji :=
    match mapGet countryFlags driver.Driver.Nationality with
    | some flag => flag
    | none => ":flag-xx:".toList
  driverEmoji ++ driver.Driver.ShortName ++ " ".toList ++ flagEmoji ++ " (".toList
    ++ L.fmtF0 driver.Points ++ ")".toList

/-- The driver loop of `SlackTopic`, `for i := 0; i < 3 && i < len(drivers); i++`,
from index `i` with the builder content `sb`.  The first argument bounds the
number of rounds; the loop is run with 3, which is enough since the test
`i < 3` stops it after three rounds at the latest (`loops_bound_enough`). -/
def slackDriversLoop (L : GoLib) (drivers : List DriverStanding) : Nat → Nat → Str → Str
  | 0, _, sb => sb
  | fuel + 1, i, sb =>
    if h : i < 3 ∧ i < drivers.length then
      let driver := drivers.get ⟨i, h.2⟩
      let sb := sb ++ slackDriverEntry L driver
      let sb := if i < 2 ∧ i + 1 < drivers.length then sb ++ ", ".toList else sb
      slackDriversLoop L drivers fuel (i + 1) sb
    else sb

/-- What `SlackTopic` writes for the driver standings. -/
def slackDrivers (L : GoLib) (drivers : DriversResult) : Str :=
  match drivers with
  | .error _ => "Standings: No data // ".toList
  | .ok drivers => slackDriversLoop L drivers 3 0 "Standings: ".toList ++ "; ".toList

/-- One constructor entry of the compact line: `"%s%s (%.0f)"`, where the pair
comes from `teamEmojis[team.TeamID]` and otherwise from `teamEmojis["unknown"]`
(the zero value, a pair of empty strings, when that key is absent). -/
def slackTeamEntry (L : GoLib) (team : TeamStanding) : Str :=
  let unknownInfo : Str × Str :=
    match mapGet teamEmojis "unknown".toList with
    | some info => info
    | none => ([], [])
  let teamInfo :=
    match mapGet teamEmojis team.TeamID with
    | some info => info
    | none => unknownInfo
  teamInfo.1 ++ teamInfo.2 ++ " (".toList ++ L.fmtF0 team.Points ++ ")".toList

/-- The constructor loop of `SlackTopic`, `for i := 0; i < 3 && i < len(teams); i++`. -/
def slackTeamsLoop (L : GoLib) (teams : List TeamStanding) : Nat → Nat → Str → Str
  | 0, _, sb => sb
  | fuel + 1, i, sb =>
    if h : i < 3 ∧ i < teams.length then
      let team := teams.get ⟨i, h.2⟩
      let sb := sb ++ slackTeamEntry L team
      let sb := if i < 2 ∧ i + 1 < teams.length then sb ++ ", ".toList else sb
      slackTeamsLoop L teams fuel (i + 1) sb
    else sb

/-- What `SlackTopic` writes for the constructor standings. -/
def slackTeams (L : GoLib) (teams : TeamsResult) : Str :=
  match teams with
  | .error _ => "No constructor data // ".toList
  | .ok teams => slackTeamsLoop L teams 3 0 []

/-- The assembled line of `SlackTopic`: the content of the builder when the
length check is reached (`topic := sb.String()`). -/
def slackLine (L : GoLib) (currentYear : Int) (next : NextRaceResult)
    (drivers : DriversResult) (teams : TeamsResult) : Str :=
  ":f1: ".toList ++ fmtInt currentYear ++ " ".toList
    ++ slackNextRace L next
    ++ slackDrivers L drivers
    ++ slackTeams L teams
    ++ " // Fantasy: `C14SOD0WQ01`".toList

/-- The string `SlackTopic` returns when the line of length `n` is too long. -/
def overflowMarker (n : Nat) : Str :=
  "ERROR: Slack topic exceeds 250 character limit (".toList ++ fmtInt n
    ++ " characters)".toList

/-- Embedding of `SlackTopic`, as a function of the year and of the outcomes of
the three fetches. -/
def SlackTopic (L : GoLib) (currentYear : Int) (next : NextRaceResult)
    (drivers : DriversResult) (teams : TeamsResult) : Str :=
  let topic := slackLine L currentYear next drivers teams
  if topic.length > 250 then overflowMarker topic.length else topic

/-- The `-slack` branch of `main`: the text printed and the exit status
(`os.Exit(1)` when the topic starts with `"ERROR:"`, and 0 otherwise). -/
def mainSlack (L : GoLib) (currentYear : Int) (next : NextRaceResult)
    (drivers : DriversResult) (teams : TeamsResult) : Str × Nat :=
  let topic := SlackTopic L currentYear next drivers teams
  (topic ++ "\n".toList, if HasPrefix topic "ERROR:".toList then 1 else 0)

/-! ## Detailed renderer (`Topic`) -/

/-- The variable `timeStr` of `Topic`: `" at "` and the clock time when the
time of the race parses, the empty string otherwise. -/
def topicTimeStr (L : GoLib) (nextRace : Race) : Str :=
  match L.parseClock nextRace.Schedule.Race.Time with
  | some raceTime => " at ".toList ++ L.formatClock raceTime
  | none => []

/-- What `Topic` writes for the next race. -/
def topicNextRace (L : GoLib) (next : NextRaceResult) : Str :=
  match next with
  | .error err => "Next race: ".toList ++ err ++ "\n\n".toList
  | .ok (nextRace, round) =>
    match L.parseDate nextRace.Schedule.Race.Date with
    | none => "Next Race: Unknown (date parsing error)\n\n".toList
    | some raceDate =>
      let timeStr := topicTimeStr L nextRace
      "Next Race: ".toList ++ nextRace.RaceName ++ " (Round ".toList ++ fmtInt round
        ++ ")\n".toList
        ++ ("Circuit: ".toList ++ nextRace.Circuit.CircuitName ++ "\n".toList)
        ++ ("Date: ".toList ++ L.formatLongDate raceDate ++ timeStr ++ "\n".toList)
        ++ ("Country: ".toList ++ nextRace.Country ++ "\n\n".toList)

/-- One driver line of the report: `"%d. %s %s (%s) - %.1f points\n"`. -/
def topicDriverEntry (L : GoLib) (driver : DriverStanding) : Str :=
  fmtInt driver.Position ++ ". ".toList ++ driver.Driver.Name ++ " ".toList
    ++ driver.Driver.Surname ++ " (".toList ++ driver.Team.TeamName ++ ") - ".toList
    ++ L.fmtF1 driver.Points ++ " points\n".toList

/-- The driver loop of `Topic`, `for i := 0; i < 3 && i < len(drivers); i++`. -/
def topicDriversLoop (L : GoLib) (drivers : List DriverStanding) : Nat → Nat → Str → Str
  | 0, _, sb => sb
  | fuel + 1, i, sb =>
    if h : i < 3 ∧ i < drivers.length then
      let driver := drivers.get ⟨i, h.2⟩
      topicDriversLoop L drivers fuel (i + 1) (sb ++ topicDriverEntry L driver)
    else sb

/-- What `Topic` writes for the driver standings. -/
def topicDrivers (L : GoLib) (drivers : DriversResult) : Str :=
  match drivers with
  | .error err => "Driver standings error: ".toList ++ err ++ "\n\n".toList
  | .ok drivers => topicDriversLoop L drivers 3 0 "Driver Standings:\n".toList ++ "\n".toList

/-- One constructor line of the report: `"%d. %s - %.1f points\n"`. -/
def topicTeamEntry (L : GoLib) (team : TeamStanding) : Str :=
  fmtInt team.Position ++ ". ".toList ++ team.Team.TeamName ++ " - ".toList
    ++ L.fmtF1 team.Points ++ " points\n".toList

/-- The constructor loop of `Topic`, `for i := 0; i < 3 && i < len(teams); i++`. -/
def topicTeamsLoop (L : GoLib) (teams : List TeamStanding) : Nat → Nat → Str → Str
  | 0, _, sb => sb
  | fuel + 1, i, sb =>
    if h : i < 3 ∧ i < teams.length then
      let team := teams.get ⟨i, h.2⟩
      topicTeamsLoop L teams fuel (i + 1) (sb ++ topicTeamEntry L team)
    else sb

/-- What `Topic` writes for the constructor standings. -/
def topicTeams (L : GoLib) (teams : TeamsResult) : Str :=
  match teams with
  | .error err => "Constructor standings error: ".toList ++ err ++ "\n".toList
  | .ok teams => topicTeamsLoop L teams 3 0 "Constructor Standings:\n".toList

/-- Embedding of `Topic`, as a function of the year and of the outcomes of the
three fetches. -/
def Topic (L : GoLib) (currentYear : Int) (next : NextRaceResult)
    (drivers : DriversResult) (teams : TeamsResult) : Str :=
  "F1 Data for ".toList ++ fmtInt currentYear ++ "\n\n".toList
    ++ topicNextRace L next
    ++ topicDrivers L drivers
    ++ topicTeams L teams

/-! ## A concrete library and sample data, for evaluating the renderers on examples -/

/-- A date and clock time of the example library. -/
structure DemoTime where
  year : Nat := 0
  month : Nat := 1
  day : Nat := 1
  hour : Nat := 0
  minute : Nat := 0
deriving DecidableEq, Repr

/-- The value of a non-empty string of decimal digits. -/
def decimal? (s : Str) : Option Nat :=
  if s ≠ [] ∧ s.all (fun c => 48 ≤ c.toNat ∧ c.toNat ≤ 57) then
    some (s.foldl (fun n c => 10 * n + (c.toNat - 48)) 0)
  else none

/-- English month names. -/
def monthNames : List Str :=
  [ "January".toList, "February".toList, "March".toList, "April".toList, "May".toList,
    "June".toList, "July".toList, "August".toList, "September".toList, "October".toList,
    "November".toList, "December".toList ]

/-- Two decimal digits, zero-padded. -/
def pad2 (n : Nat) : Str := if n < 10 then '0' :: fmtNat n else fmtNat n

/-- Lower-casing of UTF-8 text made of ASCII and of two-byte Latin-1 letters:
an ASCII capital becomes its small letter, a capital `U+00C0`..`U+00DE` other
than the multiplication sign (bytes `C3 80`..`C3 9E` other than `C3 97`) becomes
its small letter (second byte plus `0x20`), every other byte is kept. -/
def lowerLatin1 : Str → Str
  | [] => []
  | [a] => [lowerByte a]
  | a :: b :: s =>
    if a.toNat = 0xC3 ∧ 0x80 ≤ b.toNat ∧ b.toNat ≤ 0x9E ∧ b.toNat ≠ 0x97 then
      a :: Char.ofNat (b.toNat + 0x20) :: lowerLatin1 s
    else lowerByte a :: lowerLatin1 (b :: s)

/-- A stand-in for the library on examples.  It reads `YYYY-MM-DD` dates and
`HH:MM:SSZ` clock times, moves days inside the month only, reads the `bits` of
a float as its integer value, and lower-cases non-ASCII text with
`lowerLatin1`. -/
def demoLib : GoLib where
  Time := DemoTime
  parseDate := fun s =>
    match s with
    | [y1, y2, y3, y4, '-', m1, m2, '-', d1, d2] =>
      match decimal? [y1, y2, y3, y4], decimal? [m1, m2], decimal? [d1, d2] with
      | some y, some m, some d =>
        if 1 ≤ m ∧ m ≤ 12 ∧ 1 ≤ d ∧ d ≤ 31 then some { year := y, month := m, day := d }
        else none
      | _, _, _ => none
    | _ => none
  parseClock := fun s =>
    match s with
    | [h1, h2, ':', m1, m2, ':', s1, s2, 'Z'] =>
      match decimal? [h1, h2], decimal? [m1, m2], decimal? [s1, s2] with
      | some h, some m, some sec =>
        if h < 24 ∧ m < 60 ∧ sec < 60 then some { hour := h, minute := m } else none
      | _, _, _ => none
    | _ => none
  addDate := fun t _ _ days => { t with day := (Int.ofNat t.day + days).toNat }
  day := fun t => Int.ofNat t.day
  formatJan := fun t => (monthNames.getD (t.month - 1) []).take 3
  formatLongDate := fun t =>
    monthNames.getD (t.month - 1) [] ++ " ".toList ++ fmtNat t.day ++ ", ".toList ++ fmtNat t.year
  formatClock := fun t => pad2 t.hour ++ ":".toList ++ pad2 t.minute ++ " UTC".toList
  fmtF0 := fun x => fmtNat x.bits
  fmtF1 := fun x => fmtNat x.bits ++ ".0".toList
  toLowerNonASCII := lowerLatin1

/-- A sample next race. -/
def sampleRace : Race :=
  { RaceName := "Lenovo Japanese Grand Prix 2025".toList,
    Schedule := { Race := { Date := "2025-04-06".toList, Time := "05:00:00Z".toList } },
    Circuit := { CircuitName := "Suzuka".toList },
    Country := [] }

/-- A sample driver standing. -/
def sampleDriver (id name surname short nationality team : String) (pos : Int) (pts : Nat) :
    DriverStanding :=
  { DriverID := id.toList, Position := pos, Points := { bits := pts },
    Driver := { Name := name.toList, Surname := surname.toList, ShortName := short.toList,
                Nationality := nationality.toList },
    Team := { TeamName := team.toList } }

/-- A sample driver table of four entries. -/
def sampleDrivers : List DriverStanding :=
  [ sampleDriver "norris" "Lando" "Norris" "NOR" "Great Britain" "McLaren" 1 62,
    sampleDriver "max_verstappen" "Max" "Verstappen" "VER" "Netherlands" "Red Bull" 2 61,
    sampleDriver "piastri" "Oscar" "Piastri" "PIA" "Australia" "McLaren" 3 49,
    sampleDriver "russell" "George" "Russell" "RUS" "Great Britain" "Mercedes" 4 45 ]

/-- A sample constructor standing. -/
def sampleTeam (id name : String) (pos : Int) (pts : Nat) : TeamStanding :=
  { TeamID := id.toList, Position := pos, Points := { bits := pts },
    Team := { TeamName := name.toList } }

/-- A sample constructor table of four entries. -/
def sampleTeams : List TeamStanding :=
  [ sampleTeam "mclaren" "McLaren" 1 111,
    sampleTeam "mercedes" "Mercedes" 2 75,
    sampleTeam "red_bull" "Red Bull" 3 61,
    sampleTeam "ferrari" "Ferrari" 4 35 ]

/-- A driver whose short name is 80 bytes long. -/
def longDriver : DriverStanding :=
  { Driver := { ShortName := List.replicate 80 'A' } }

/-! ## The race-name table, as the specification words it -/

/-- The ordered table of known race substrings and their labels: each entry
lists the substrings that select it. -/
def raceTable : List (List Str × Str) :=
  [ (["Japanese".toList], "Japan".toList),
    (["Chinese".toList], "China".toList),
    (["Monaco".toList], "Monaco".toList),
    (["British".toList], "Britain".toList),
    (["Italian".toList], "Italy".toList),
    (["Spanish".toList], "Spain".toList),
    (["Australian".toList], "Australia".toList),
    (["Hungarian".toList], "Hungary".toList),
    (["Belgian".toList], "Belgium".toList),
    (["Dutch".toList], "Netherlands".toList),
    (["United States".toList, "USA".toList], "USA".toList),
    (["Mexico".toList, "Mexican".toList], "Mexico".toList),
    (["Brazil".toList, "Brazilian".toList, saoPaulo], "Brazil".toList),
    (["Abu Dhabi".toList], "Abu Dhabi".toList),
    (["Qatar".toList], "Qatar".toList),
    (["Singapore".toList], "Singapore".toList),
    (["Saudi".toList, "Jeddah".toList], "Saudi Arabia".toList),
    (["Bahrain".toList], "Bahrain".toList),
    (["Miami".toList], "Miami".toList),
    (["Las Vegas".toList], "Las Vegas".toList),
    (["Canada".toList, "Canadian".toList, "Montreal".toList], "Canada".toList),
    (["Azerbaijan".toList, "Baku".toList], "Azerbaijan".toList) ]

/-- An entry of the table matches a title when one of its substrings occurs in it. -/
def entryMatches (title : Str) (e : List Str × Str) : Bool := e.1.any (Contains title)

/-- The title contains none of the known race substrings. -/
def noKnownRace (title : Str) : Prop := ∀ e ∈ raceTable, entryMatches title e = false

instance (title : Str) : Decidable (noKnownRace title) := by
  unfold noKnownRace; infer_instance

/-- The bytes the specification's "whitespace" covers: space, tab, line feed,
vertical tab, form feed, carriage return. -/
def isWhitespace (c : Char) : Bool :=
  c = ' ' || c = '\t' || c = '\n' || c = Char.ofNat 11 || c = Char.ofNat 12 || c = '\r'

/-- Tokens of a title in the specification's words ("split the title on
whitespace"): the maximal runs of bytes that are not whitespace.  The second
argument is the token being read. -/
def whitespaceTokens : Str → Str → List Str
  | [], cur => if cur.isEmpty then [] else [cur.reverse]
  | c :: s, cur =>
    if isWhitespace c then
      if cur.isEmpty then whitespaceTokens s [] else cur.reverse :: whitespaceTokens s []
    else whitespaceTokens s (c :: cur)

/-- The fallback of the race-name normaliser in the specification's words:
whitespace tokens, all but the first and the last two joined by one space when
there are more than two, the title itself otherwise. -/
def fallbackSpec (title : Str) : Str :=
  let tokens := whitespaceTokens title []
  if tokens.length > 2 then
    " ".toList.intercalate ((tokens.drop 1).take (tokens.length - 3))
  else title

/-- Heading of the next-race section. -/
def nextHeading : Str := "Next Race:".toList

/-- Error text of the next-race section. -/
def nextErrorText : Str := "Next race:".toList

/-- Heading of the driver section. -/
def driversHeading : Str := "Driver Standings:".toList

/-- Error text of the driver section. -/
def driversErrorText : Str := "Driver standings error:".toList

/-- Heading of the constructor section. -/
def teamsHeading : Str := "Constructor Standings:".toList

/-- Error text of the constructor section. -/
def teamsErrorText : Str := "Constructor standings error:".toList

/-- The six texts by which a section of the report is recognised. -/
def topicMarkers : List Str :=
  [nextHeading, nextErrorText, driversHeading, driversErrorText, teamsHeading, teamsErrorText]

/-- Whether a fetch succeeded. -/
def succeeded {α : Type} : Except Str α → Bool
  | .ok _ => true
  | .error _ => false

/-- None of the six section texts occurs in `s`. -/
def markerFree (s : Str) : Bool := topicMarkers.all (fun m => !Contains s m)

/-- The variable texts of the next-race section carry none of the six section
texts: the error message, or the race name, the circuit name, the formatted
date and time, and the country. -/
def nextTextsClean (L : GoLib) : NextRaceResult → Bool
  | .error err => markerFree err
  | .ok (nextRace, _) =>
    match L.parseDate nextRace.Schedule.Race.Date with
    | none => true
    | some raceDate =>
      markerFree nextRace.RaceName && markerFree nextRace.Circuit.CircuitName
        && markerFree (L.formatLongDate raceDate ++ topicTimeStr L nextRace)
        && markerFree nextRace.Country

/-- The variable texts of the driver section carry none of the six section
texts: the error message, or, for each of the first three drivers, the full
name `"<name> <surname>"`, the team name and the formatted points. -/
def driversTextsClean (L : GoLib) : DriversResult → Bool
  | .error err => markerFree err
  | .ok drivers =>
    (drivers.take 3).all (fun d =>
      markerFree (d.Driver.Name ++ " ".toList ++ d.Driver.Surname)
        && markerFree d.Team.TeamName && markerFree (L.fmtF1 d.Points))

/-- The variable texts of the constructor section carry none of the six section
texts: the error message, or, for each of the first three teams, the team name
and the formatted points. -/
def teamsTextsClean (L : GoLib) : TeamsResult → Bool
  | .error err => markerFree err
  | .ok teams =>
    (teams.take 3).all (fun t => markerFree t.Team.TeamName && markerFree (L.fmtF1 t.Points))

/-! ## Data fetchers (`fetchNextRace`, `fetchDriverStandings`, `fetchTeamStandings`) -/

/-- Go `ErrorResponse`. -/
structure ErrorResponse where
  API : Str := []
  URL : Str := []
  Message : Str := []
  Status : Int := 0
deriving DecidableEq, Repr

/-- Go `Championship`. -/
structure Championship where
  ChampionshipID : Str := []
  ChampionshipName : Str := []
  URL : Str := []
  Year : Int := 0
deriving DecidableEq, Repr

/-- Go `NextRaceResponse`. -/
structure NextRaceResponse where
  API : Str := []
  URL : Str := []
  Total : Int := 0
  Season : Int := 0
  Round : Int := 0
  Championship : Championship := {}
  Race : List Race := []
deriving DecidableEq, Repr

/-- Go `DriverChampionshipResponse`. -/
structure DriverChampionshipResponse where
  API : Str := []
  URL : Str := []
  Limit : Int := 0
  Offset : Int := 0
  Total : Int := 0
  Season : Int := 0
  ChampionshipID : Str := []
  DriversChampionship : List DriverStanding := []
deriving DecidableEq, Repr

/-- Go `ConstructorChampionshipResponse`. -/
structure ConstructorChampionshipResponse where
  API : Str := []
  URL : Str := []
  Limit : Int := 0
  Offset : Int := 0
  Total : Int := 0
  Season : Int := 0
  ChampionshipID : Str := []
  ConstructorsChampionship : List TeamStanding := []
deriving DecidableEq, Repr

/-- What a fetcher gets from the network: an error of `http.Get`, an error of
`io.ReadAll` on the response body, or the bytes of the body. -/
inductive HttpOutcome where
  | getError (err : Str)
  | readError (err : Str)
  | body (body : Str)
deriving DecidableEq, Repr

/-- The calls of `json.Unmarshal` made by the fetchers, one per target type:
the decoded value when the call returns a `nil` error, the error otherwise. -/
structure JsonLib where
  /-- Go `json.Unmarshal(body, &errorResp)`. -/
  unmarshalErrorResponse : Str → Except Str ErrorResponse
  /-- Go `json.Unmarshal(body, &nextRaceResp)`. -/
  unmarshalNextRace : Str → Except Str NextRaceResponse
  /-- Go `json.Unmarshal(body, &driverResp)`. -/
  unmarshalDrivers : Str → Except Str DriverChampionshipResponse
  /-- Go `json.Unmarshal(body, &teamResp)`. -/
  unmarshalTeams : Str → Except Str ConstructorChampionshipResponse

/-- The test `err == nil && errorResp.Status >= 400` that each fetcher makes
first on the body: the upstream message when the test holds. -/
def errorEnvelope (J : JsonLib) (body : Str) : Option Str :=
  match J.unmarshalErrorResponse body with
  | .ok errorResp => if errorResp.Status ≥ 400 then some errorResp.Message else none
  | .error _ => none

/-- Embedding of `fetchNextRace`, as a function of what the network returned. -/
def fetchNextRace (J : JsonLib) (resp : HttpOutcome) : NextRaceResult :=
  match resp with
  | .getError err => .error ("error fetching next race: ".toList ++ err)
  | .readError err => .error ("error reading response: ".toList ++ err)
  | .body body =>
    match errorEnvelope J body with
    | some message => .error ("no data found: ".toList ++ message)
    | none =>
      match J.unmarshalNextRace body with
      | .error err => .error ("error unmarshaling next race data: ".toList ++ err)
      | .ok nextRaceResp =>
        if h : nextRaceResp.Race.length = 0 then .error "no upcoming races found".toList
        else .ok (nextRaceResp.Race.get ⟨0, Nat.pos_of_ne_zero h⟩, nextRaceResp.Round)

/-- Embedding of `fetchDriverStandings`. -/
def fetchDriverStandings (J : JsonLib) (resp : HttpOutcome) : DriversResult :=
  match resp with
  | .getError err => .error ("error fetching driver standings: ".toList ++ err)
  | .readError err => .error ("error reading response: ".toList ++ err)
  | .body body =>
    match errorEnvelope J body with
    | some message => .error ("no data found: ".toList ++ message)
    | none =>
      match J.unmarshalDrivers body with
      | .error err => .error ("error unmarshaling driver data: ".toList ++ err)
      | .ok driverResp => .ok driverResp.DriversChampionship

/-- Embedding of `fetchTeamStandings`. -/
def fetchTeamStandings (J : JsonLib) (resp : HttpOutcome) : TeamsResult :=
  match resp with
  | .getError err => .error ("error fetching team standings: ".toList ++ err)
  | .readError err => .error ("error reading response: ".toList ++ err)
  | .body body =>
    match errorEnvelope J body with
    | some message => .error ("no data found: ".toList ++ message)
    | none =>
      match J.unmarshalTeams body with
      | .error err => .error ("error unmarshaling team data: ".toList ++ err)
      | .ok teamResp => .ok teamResp.ConstructorsChampionship

/-- The specification's "the body parses as an error envelope with status at
least 400". -/
def isErrorEnvelope (J : JsonLib) (body : Str) : Bool :=
  match J.unmarshalErrorResponse body with
  | .ok errorResp => decide (400 ≤ errorResp.Status)
  | .error _ => false

/-- A sample error body of the upstream. -/
def sampleErrorBody : Str :=
  "\x7b\"message\":\"No races found\",\"status\":404\x7d".toList

/-- A sample body of the next-race endpoint, carrying `sampleRace` as round 3. -/
def sampleRaceBody : Str :=
  ("\x7b\"round\":3,\"race\":[\x7b\"raceName\":\"Lenovo Japanese Grand Prix 2025\","
    ++ "\"schedule\":\x7b\"race\":\x7b\"date\":\"2025-04-06\",\"time\":\"05:00:00Z\"\x7d\x7d,"
    ++ "\"circuit\":\x7b\"circuitName\":\"Suzuka\"\x7d\x7d]\x7d").toList

/-- A sample body of the next-race endpoint with an empty race list. -/
def sampleNoRaceBody : Str := "\x7b\"round\":0,\"race\":[]\x7d".toList

/-- A sample body of a standings endpoint with empty tables. -/
def sampleNoStandingsBody : Str :=
  "\x7b\"drivers_championship\":[],\"constructors_championship\":[]\x7d".toList

/-- A stand-in for `encoding/json` on the four sample bodies and on text that
is not JSON: what `json.Unmarshal` returns on them for each target type (fields
absent from a body keep their zero value, fields unknown to the target are
ignored); any other body is treated as not JSON. -/
def demoJson : JsonLib where
  unmarshalErrorResponse := fun body =>
    if body = sampleErrorBody then .ok { Message := "No races found".toList, Status := 404 }
    else if body = sampleRaceBody ∨ body = sampleNoRaceBody ∨ body = sampleNoStandingsBody then
      .ok {}
    else .error "invalid character".toList
  unmarshalNextRace := fun body =>
    if body = sampleRaceBody then .ok { Round := 3, Race := [sampleRace] }
    else if body = sampleErrorBody ∨ body = sampleNoRaceBody ∨ body = sampleNoStandingsBody then
      .ok {}
    else .error "invalid character".toList
  unmarshalDrivers := fun body =>
    if body = sampleErrorBody ∨ body = sampleRaceBody ∨ body = sampleNoRaceBody
        ∨ body = sampleNoStandingsBody then .ok {}
    else .error "invalid character".toList
  unmarshalTeams := fun body =>
    if body = sampleErrorBody ∨ body = sampleRaceBody ∨ body = sampleNoRaceBody
        ∨ body = sampleNoStandingsBody then .ok {}
    else .error "invalid character".toList

/-! ## Characters and bytes -/

/-- The chain of tests of `extractRaceName` is a first-match search of
`raceTable`, with the word-trim fallback when nothing matches. -/
theorem extractRaceName_eq_find (title : Str) :
    extractRaceName title =
      match raceTable.find? (entryMatches title) with
      | some e => e.2
      | none => extractRaceNameFallback title := by
  unfold extractRaceName
  simp only [raceTable, List.find?, entryMatches, List.any_cons, List.any_nil, Bool.or_false]
  cases Contains title "Japanese".toList; swap; rfl
  cases Contains title "Chinese".toList; swap; rfl
  cases Contains title "Monaco".toList; swap; rfl
  cases Contains title "British".toList; swap; rfl
  cases Contains title "Italian".toList; swap; rfl
  cases Contains title "Spanish".toList; swap; rfl
  cases Contains title "Australian".toList; swap; rfl
  cases Contains title "Hungarian".toList; swap; rfl
  cases Contains title "Belgian".toList; swap; rfl
  cases Contains title "Dutch".toList; swap; rfl
  cases Contains title "United States".toList; swap; rfl
  cases Contains title "USA".toList; swap; rfl
  cases Contains title "Mexico".toList; swap; rfl
  cases Contains title "Mexican".toList; swap; rfl
  cases Contains title "Brazil".toList; swap; rfl
  cases Contains title "Brazilian".toList; swap; rfl
  cases Contains title saoPaulo; swap; rfl
  cases Contains title "Abu Dhabi".toList; swap; rfl
  cases Contains title "Qatar".toList; swap; rfl
  cases Contains title "Singapore".toList; swap; rfl
  cases Contains title "Saudi".toList; swap; rfl
  cases Contains title "Jeddah".toList; swap; rfl
  cases Contains title "Bahrain".toList; swap; rfl
  cases Contains title "Miami".toList; swap; rfl
  cases Contains title "Las Vegas".toList; swap; rfl
  cases Contains title "Canada".toList; swap; rfl
  cases Contains title "Canadian".toList; swap; rfl
  cases Contains title "Montreal".toList; swap; rfl
  cases Contains title "Azerbaijan".toList; swap; rfl
  cases Contains title "Baku".toList; swap; rfl
  rfl

/-- The first element of a list that satisfies `p`, found by position. -/
theorem find?_eq_of_first {α : Type} (p : α → Bool) :
    ∀ (l : List α) (i : Nat) (e : α), l[i]? = some e → p e = true →
      (∀ j < i, ∀ e', l[j]? = some e' → p e' = false) → l.find? p = some e
  | [], i, e, hi, _, _ => by simp at hi
  | a :: l, 0, e, hi, hp, _ => by
    simp only [List.getElem?_cons_zero, Option.some.injEq] at hi
    subst hi
    simp [List.find?, hp]
  | a :: l, i + 1, e, hi, hp, hfirst => by
    have ha : p a = false := hfirst 0 (Nat.succ_pos i) a (by simp)
    simp only [List.getElem?_cons_succ] at hi
    have ih := find?_eq_of_first p l i e hi hp
      (fun j hj e' he' => hfirst (j + 1) (Nat.succ_lt_succ hj) e' (by simpa using he'))
    simp [List.find?, ha, ih]

/-- A search that finds nothing, from the elements. -/
theorem find?_eq_none_of_forall {α : Type} (p : α → Bool) (l : List α)
    (h : ∀ e ∈ l, p e = false) : l.find? p = none := by
  rw [List.find?_eq_none]
  intro e he
  simp [h e he]

/-- The model of `strings.Split` on one byte is the library's `List.splitOn`. -/
theorem Split_eq_splitOn (sep : Char) : ∀ s : Str, Split s sep = s.splitOn sep
  | [] => by simp [Split, List.splitOn, List.splitOnP_nil]
  | c :: s => by
    have ih := Split_eq_splitOn sep s
    unfold List.splitOn at ih ⊢
    rw [Split, List.splitOnP_cons, ih]
    by_cases h : c = sep
    · simp [h]
    · simp only [h, if_false, beq_iff_eq]
      cases hs : List.splitOnP (fun x => x == sep) s with
      | nil => exact absurd hs (List.splitOnP_ne_nil _ _)
      | cons p ps => simp [List.modifyHead]

/-- The model of `strings.Join` is the library's `List.intercalate`. -/
theorem Join_eq_intercalate (sep : Str) : ∀ parts : List Str, Join parts sep = sep.intercalate parts
  | [] => by simp [Join, List.intercalate]
  | [p] => by simp [Join, List.intercalate]
  | p :: q :: ps => by
    have ih := Join_eq_intercalate sep (q :: ps)
    simp only [Join, ih, List.intercalate, List.intersperse, List.flatten, List.append_assoc]

/-- C4, as stated, fails: the title `"Sponsor Example Street Circuit 2025"` has
five space-separated tokens, not four, and `extractRaceName` does not return
`"Example"` on it. -/
theorem extractRaceName_example_not_Example :
    extractRaceName "Sponsor Example Street Circuit 2025".toList ≠ "Example".toList := by
  decide

/-- C4, amended: the title `"Sponsor Example Street Circuit 2025"` contains no
known race substring and splits into five tokens; dropping the first and the
last two, `extractRaceName` returns `"Example Street"`. -/
theorem extractRaceName_example :
    noKnownRace "Sponsor Example Street Circuit 2025".toList ∧
    Split "Sponsor Example Street Circuit 2025".toList ' ' =
      ["Sponsor".toList, "Example".toList, "Street".toList, "Circuit".toList, "2025".toList] ∧
    extractRaceName "Sponsor Example Street Circuit 2025".toList = "Example Street".toList := by
  decide

/-- C5, as stated, fails: on a title whose first two words are separated by a
tab, whitespace tokenisation gives five tokens and the claimed result
`"Example Street"`, while `extractRaceName` splits on the space byte only, sees
four pieces and returns `"Street"`. -/
theorem extractRaceName_fallback_not_whitespace :
    noKnownRace "Sponsor\tExample Street Circuit 2025".toList ∧
    whitespaceTokens "Sponsor\tExample Street Circuit 2025".toList [] =
      ["Sponsor".toList, "Example".toList, "Street".toList, "Circuit".toList, "2025".toList] ∧
    fallbackSpec "Sponsor\tExample Street Circuit 2025".toList = "Example Street".toList ∧
    extractRaceName "Sponsor\tExample Street Circuit 2025".toList = "Street".toList ∧
    extractRaceName "Sponsor\tExample Street Circuit 2025".toList ≠
      fallbackSpec "Sponsor\tExample Street Circuit 2025".toList := by
  decide

/-- C5, amended: for every title that contains none of the known race
substrings, `extractRaceName` cuts the title at every space byte (`splitOn ' '`:
adjacent, leading or trailing spaces delimit empty pieces, other whitespace
does not cut) and, if there are more than two pieces, returns all pieces except
the first and the last two joined by a single space (the empty string when
there are exactly three); with two or fewer pieces it returns the title
unchanged. -/
theorem extractRaceName_fallback (title : Str) (h : noKnownRace title) :
    (extractRaceName title =
      if (title.splitOn ' ').length > 2 then
        " ".toList.intercalate (((title.splitOn ' ').drop 1).take ((title.splitOn ' ').length - 3))
      else title) ∧
    ((title.splitOn ' ').length = 3 → extractRaceName title = []) ∧
    ((title.splitOn ' ').length ≤ 2 → extractRaceName title = title) := by
  have hfind : raceTable.find? (entryMatches title) = none :=
    find?_eq_none_of_forall _ _ h
  have hmain : extractRaceName title =
      if (title.splitOn ' ').length > 2 then
        " ".toList.intercalate (((title.splitOn ' ').drop 1).take ((title.splitOn ' ').length - 3))
      else title := by
    rw [extractRaceName_eq_find, hfind]
    simp only [extractRaceNameFallback, slice, Split_eq_splitOn, Join_eq_intercalate,
      List.drop_take]
    rfl
  refine ⟨hmain, ?_, ?_⟩
  · intro h3
    rw [hmain, h3]
    simp [List.intercalate]
  · intro h2
    rw [hmain, if_neg (by omega)]

/-- C5, amended, on an example: a title with two adjacent spaces. -/
theorem extractRaceName_fallback_witness :
    noKnownRace "Sponsor  Example Street Circuit 2025".toList ∧
    extractRaceName "Sponsor  Example Street Circuit 2025".toList = " Example Street".toList := by
  refine ⟨by decide, ?_⟩
  rw [(extractRaceName_fallback "Sponsor  Example Street Circuit 2025".toList (by decide)).1]
  decide

/-- A title containing `"Japanese"` is labelled `"Japan"`, whatever else it
contains: the first entry of the table wins. -/
theorem extractRaceName_of_Japanese (title : Str)
    (h : Contains title "Japanese".toList = true) : extractRaceName title = "Japan".toList := by
  rw [extractRaceName_eq_find]
  have : raceTable.find? (entryMatches title) = some (["Japanese".toList], "Japan".toList) :=
    find?_eq_of_first _ _ 0 _ (by rfl) (by simpa [entryMatches] using h)
      (fun j hj0 => absurd hj0 (Nat.not_lt_zero j))
  rw [this]

/-- C6: for every title, `extractRaceName` returns the label of the first entry
of the table, in table order, one of whose substrings occurs in the title: if
entry `i` matches and no entry before it does, the result is the label of entry
`i`.  In particular every title containing `"Japanese"` yields `"Japan"`, as
does `"Lenovo Japanese Grand Prix 2025"`, and `"Monaco Grand Prix 2025"` yields
`"Monaco"`. -/
theorem extractRaceName_first_match (title : Str) :
    (∀ (i : Nat) (e : List Str × Str), raceTable[i]? = some e → entryMatches title e = true →
      (∀ j < i, ∀ e', raceTable[j]? = some e' → entryMatches title e' = false) →
      extractRaceName title = e.2) ∧
    (Contains title "Japanese".toList = true → extractRaceName title = "Japan".toList) ∧
    extractRaceName "Lenovo Japanese Grand Prix 2025".toList = "Japan".toList ∧
    extractRaceName "Monaco Grand Prix 2025".toList = "Monaco".toList := by
  refine ⟨?_, ?_, by decide, by decide⟩
  · intro i e hi hm hfirst
    rw [extractRaceName_eq_find, find?_eq_of_first _ _ i e hi hm hfirst]
  · exact extractRaceName_of_Japanese title

/-- C6 on an example: a title in which both the Monaco entry (index 2) and the
Miami entry (index 18) match is labelled by the earlier one. -/
theorem extractRaceName_first_match_witness :
    entryMatches "Miami meets Monaco Grand Prix 2025".toList (["Miami".toList], "Miami".toList) = true ∧
    extractRaceName "Miami meets Monaco Grand Prix 2025".toList = "Monaco".toList :=
  ⟨by decide,
   (extractRaceName_first_match "Miami meets Monaco Grand Prix 2025".toList).1 2
     (["Monaco".toList], "Monaco".toList) (by decide) (by decide) (by decide)⟩

/-! ## Theorems: the length check of the compact renderer -/

/-- The assembled line starts with the bytes `:f1: `. -/
theorem slackLine_eq_cons (L : GoLib) (currentYear : Int) (next : NextRaceResult)
    (drivers : DriversResult) (teams : TeamsResult) :
    ∃ rest : Str, slackLine L currentYear next drivers teams = ':' :: 'f' :: '1' :: ':' :: ' ' :: rest :=
  ⟨_, rfl⟩

/-- The overflow marker starts with the bytes `ERROR:`. -/
theorem overflowMarker_eq_cons (n : Nat) :
    ∃ rest : Str, overflowMarker n = 'E' :: 'R' :: 'R' :: 'O' :: 'R' :: ':' :: rest :=
  ⟨_, rfl⟩

/-- The rendering of a natural number below `10 ^ e` has at most `e` digits. -/
theorem fmtNat_length_le (n e : Nat) (h : n < 10 ^ e) (he : 0 < e) : (fmtNat n).length ≤ e :=
  Nat.toDigitsCore_length 10 (by decide) (n + 1) n e h he

/-- Length of the overflow marker: 60 bytes of fixed text and the digits. -/
theorem overflowMarker_length (n : Nat) : (overflowMarker n).length = 60 + (fmtNat n).length := by
  have h1 : ("ERROR: Slack topic exceeds 250 character limit (".toList).length = 48 := by decide
  have h2 : (" characters)".toList).length = 12 := by decide
  have h3 : fmtInt (n : Int) = fmtNat n := rfl
  simp only [overflowMarker, List.length_append, h1, h2, h3]
  omega

/-- The assembled line is never an overflow marker. -/
theorem slackLine_ne_overflowMarker (L : GoLib) (currentYear : Int) (next : NextRaceResult)
    (drivers : DriversResult) (teams : TeamsResult) (n : Nat) :
    slackLine L currentYear next drivers teams ≠ overflowMarker n := by
  obtain ⟨r, hr⟩ := slackLine_eq_cons L currentYear next drivers teams
  obtain ⟨r', hr'⟩ := overflowMarker_eq_cons n
  rw [hr, hr']
  intro h
  exact absurd (List.cons.inj h).1 (by decide)

/-- On a line longer than 250, `SlackTopic` returns the overflow marker of its
length. -/
theorem SlackTopic_of_long (L : GoLib) (currentYear : Int) (next : NextRaceResult)
    (drivers : DriversResult) (teams : TeamsResult)
    (h : 250 < (slackLine L currentYear next drivers teams).length) :
    SlackTopic L currentYear next drivers teams =
      overflowMarker (slackLine L currentYear next drivers teams).length := by
  simp only [SlackTopic, gt_iff_lt, h, if_true]

/-- On a line of at most 250, `SlackTopic` returns the line. -/
theorem SlackTopic_of_short (L : GoLib) (currentYear : Int) (next : NextRaceResult)
    (drivers : DriversResult) (teams : TeamsResult)
    (h : (slackLine L currentYear next drivers teams).length ≤ 250) :
    SlackTopic L currentYear next drivers teams = slackLine L currentYear next drivers teams := by
  simp only [SlackTopic, gt_iff_lt, Nat.not_lt.mpr h, if_false]

/-- C2: for every combination of fetch outcomes, the string returned by
`SlackTopic` has length at most 250, whether it is the rendered line or the
overflow marker.  The hypothesis is Go's bound on the length of any string:
`len` is an `int`, so the assembled line has fewer than `2 ^ 63` bytes. -/
theorem SlackTopic_length_le (L : GoLib) (currentYear : Int) (next : NextRaceResult)
    (drivers : DriversResult) (teams : TeamsResult)
    (hlen : (slackLine L currentYear next drivers teams).length < 2 ^ 63) :
    (SlackTopic L currentYear next drivers teams).length ≤ 250 := by
  unfold SlackTopic
  by_cases h : (slackLine L currentYear next drivers teams).length > 250
  · simp only [h, if_true, overflowMarker_length]
    have hd := fmtNat_length_le (slackLine L currentYear next drivers teams).length 19
      (lt_trans hlen (by norm_num)) (by decide)
    omega
  · simp only [h, if_false]
    omega

set_option maxRecDepth 100000 in
/-- C2 on an example: the marker returned for the 385-byte line has 63 bytes. -/
theorem SlackTopic_length_le_witness :
    (slackLine demoLib 2025 (.error []) (.ok [longDriver, longDriver, longDriver])
      (.error [])).length < 2 ^ 63 ∧
    (SlackTopic demoLib 2025 (.error []) (.ok [longDriver, longDriver, longDriver])
      (.error [])).length ≤ 250 :=
  ⟨by decide,
   SlackTopic_length_le demoLib 2025 (.error []) (.ok [longDriver, longDriver, longDriver])
     (.error []) (by decide)⟩

/-- C3: for every combination of fetch outcomes, the string returned by
`SlackTopic` starts with `"ERROR:"` if and only if the assembled line is longer
than 250; the assembled line itself always starts with `":f1: "` and never with
`"ERROR:"`; and the exit status of the `-slack` branch of `main` is non-zero
exactly on overflow. -/
theorem SlackTopic_error_prefix (L : GoLib) (currentYear : Int) (next : NextRaceResult)
    (drivers : DriversResult) (teams : TeamsResult) :
    (HasPrefix (SlackTopic L currentYear next drivers teams) "ERROR:".toList = true ↔
      250 < (slackLine L currentYear next drivers teams).length) ∧
    HasPrefix (slackLine L currentYear next drivers teams) ":f1: ".toList = true ∧
    HasPrefix (slackLine L currentYear next drivers teams) "ERROR:".toList = false ∧
    ((mainSlack L currentYear next drivers teams).2 ≠ 0 ↔
      250 < (slackLine L currentYear next drivers teams).length) ∧
    ((mainSlack L currentYear next drivers teams).2 = 0 ↔
      SlackTopic L currentYear next drivers teams = slackLine L currentYear next drivers teams) := by
  obtain ⟨r, hr⟩ := slackLine_eq_cons L currentYear next drivers teams
  have hline1 : HasPrefix (slackLine L currentYear next drivers teams) ":f1: ".toList = true := by
    rw [hr]; simp [HasPrefix, List.isPrefixOf]
  have hline2 : HasPrefix (slackLine L currentYear next drivers teams) "ERROR:".toList = false := by
    rw [hr]; simp [HasPrefix, List.isPrefixOf]
  have hiff : HasPrefix (SlackTopic L currentYear next drivers teams) "ERROR:".toList = true ↔
      250 < (slackLine L currentYear next drivers teams).length := by
    unfold SlackTopic
    by_cases h : (slackLine L currentYear next drivers teams).length > 250
    · obtain ⟨r', hr'⟩ := overflowMarker_eq_cons (slackLine L currentYear next drivers teams).length
      rw [if_pos h, hr']
      exact ⟨fun _ => h, fun _ => by simp [HasPrefix, List.isPrefixOf]⟩
    · rw [if_neg h, hline2]
      exact ⟨fun hf => absurd hf (by decide), fun hf => absurd hf h⟩
  have hexit : (mainSlack L currentYear next drivers teams).2 =
      if HasPrefix (SlackTopic L currentYear next drivers teams) "ERROR:".toList = true then 1
      else 0 := rfl
  have hnz : (mainSlack L currentYear next drivers teams).2 ≠ 0 ↔
      250 < (slackLine L currentYear next drivers teams).length := by
    rw [hexit, ← hiff]
    by_cases hb : HasPrefix (SlackTopic L currentYear next drivers teams) "ERROR:".toList = true
    · rw [if_pos hb]; exact ⟨fun _ => hb, fun _ => by decide⟩
    · rw [if_neg hb]; exact ⟨fun h => absurd rfl h, fun h => absurd h hb⟩
  refine ⟨hiff, hline1, hline2, hnz, ?_⟩
  · have hz : (mainSlack L currentYear next drivers teams).2 = 0 ↔
        ¬ 250 < (slackLine L currentYear next drivers teams).length := by
      rw [← hnz, not_not]
    rw [hz]
    constructor
    · intro h
      exact SlackTopic_of_short L currentYear next drivers teams (Nat.le_of_not_lt h)
    · intro h hlt
      have hn := SlackTopic_of_long L currentYear next drivers teams hlt
      exact slackLine_ne_overflowMarker L currentYear next drivers teams _ (h ▸ hn)

/-! ## Theorems: country code of the compact line -/

/-- The driver loop of the compact line, run from index 0, writes the entries
of the first three drivers joined by `", "`. -/
theorem slackDriversLoop_eq (L : GoLib) (drivers : List DriverStanding) (sb : Str) :
    slackDriversLoop L drivers 3 0 sb =
      sb ++ ", ".toList.intercalate ((drivers.take 3).map (slackDriverEntry L)) := by
  match drivers with
  | [] => simp [slackDriversLoop, List.intercalate]
  | [a] => simp [slackDriversLoop, List.intercalate]
  | [a, b] => simp [slackDriversLoop, List.intercalate]
  | a :: b :: c :: rest => simp [slackDriversLoop, List.intercalate]

/-- The constructor loop of the compact line, run from index 0, writes the
entries of the first three teams joined by `", "`. -/
theorem slackTeamsLoop_eq (L : GoLib) (teams : List TeamStanding) (sb : Str) :
    slackTeamsLoop L teams 3 0 sb =
      sb ++ ", ".toList.intercalate ((teams.take 3).map (slackTeamEntry L)) := by
  match teams with
  | [] => simp [slackTeamsLoop, List.intercalate]
  | [a] => simp [slackTeamsLoop, List.intercalate]
  | [a, b] => simp [slackTeamsLoop, List.intercalate]
  | a :: b :: c :: rest => simp [slackTeamsLoop, List.intercalate]

/-- The driver loop of the report, run from index 0, writes the lines of the
first three drivers. -/
theorem topicDriversLoop_eq (L : GoLib) (drivers : List DriverStanding) (sb : Str) :
    topicDriversLoop L drivers 3 0 sb =
      sb ++ ((drivers.take 3).map (topicDriverEntry L)).flatten := by
  match drivers with
  | [] => simp [topicDriversLoop]
  | [a] => simp [topicDriversLoop]
  | [a, b] => simp [topicDriversLoop]
  | a :: b :: c :: rest => simp [topicDriversLoop]

/-- The constructor loop of the report, run from index 0, writes the lines of
the first three teams. -/
theorem topicTeamsLoop_eq (L : GoLib) (teams : List TeamStanding) (sb : Str) :
    topicTeamsLoop L teams 3 0 sb =
      sb ++ ((teams.take 3).map (topicTeamEntry L)).flatten := by
  match teams with
  | [] => simp [topicTeamsLoop]
  | [a] => simp [topicTeamsLoop]
  | [a, b] => simp [topicTeamsLoop]
  | a :: b :: c :: rest => simp [topicTeamsLoop]

/-- Once the index has reached 3 the loops stop, whatever bound is left, so the
bound of 3 rounds never cuts a loop short. -/
theorem loops_stop_at_three (L : GoLib) (drivers : List DriverStanding)
    (teams : List TeamStanding) (fuel : Nat) (sb : Str) :
    slackDriversLoop L drivers fuel 3 sb = sb ∧ slackTeamsLoop L teams fuel 3 sb = sb ∧
    topicDriversLoop L drivers fuel 3 sb = sb ∧ topicTeamsLoop L teams fuel 3 sb = sb := by
  cases fuel <;>
    simp [slackDriversLoop, slackTeamsLoop, topicDriversLoop, topicTeamsLoop]

/-- Running the four loops with a bound larger than 3 changes nothing: the
bound of 3 rounds is enough for every list. -/
theorem loops_bound_enough (L : GoLib) (drivers : List DriverStanding)
    (teams : List TeamStanding) (k : Nat) (sb : Str) :
    slackDriversLoop L drivers (k + 3) 0 sb = slackDriversLoop L drivers 3 0 sb ∧
    slackTeamsLoop L teams (k + 3) 0 sb = slackTeamsLoop L teams 3 0 sb ∧
    topicDriversLoop L drivers (k + 3) 0 sb = topicDriversLoop L drivers 3 0 sb ∧
    topicTeamsLoop L teams (k + 3) 0 sb = topicTeamsLoop L teams 3 0 sb := by
  refine ⟨?_, ?_, ?_, ?_⟩
  · match drivers with
    | [] => simp [slackDriversLoop]
    | [a] => simp [slackDriversLoop]
    | [a, b] => simp [slackDriversLoop]
    | a :: b :: c :: rest =>
      simp [slackDriversLoop, (loops_stop_at_three L (a :: b :: c :: rest) teams k _).1]
  · match teams with
    | [] => simp [slackTeamsLoop]
    | [a] => simp [slackTeamsLoop]
    | [a, b] => simp [slackTeamsLoop]
    | a :: b :: c :: rest =>
      simp [slackTeamsLoop, (loops_stop_at_three L drivers (a :: b :: c :: rest) k _).2.1]
  · match drivers with
    | [] => simp [topicDriversLoop]
    | [a] => simp [topicDriversLoop]
    | [a, b] => simp [topicDriversLoop]
    | a :: b :: c :: rest =>
      simp [topicDriversLoop, (loops_stop_at_three L (a :: b :: c :: rest) teams k _).2.2.1]
  · match teams with
    | [] => simp [topicTeamsLoop]
    | [a] => simp [topicTeamsLoop]
    | [a, b] => simp [topicTeamsLoop]
    | a :: b :: c :: rest =>
      simp [topicTeamsLoop, (loops_stop_at_three L drivers (a :: b :: c :: rest) k _).2.2.2]

/-- C8: for every driver list and every team list returned by a successful
fetch, both renderers render exactly the first `min 3 n` entries, in list
order, and nothing for the rest: the compact line has the entries of
`take 3` joined by `", "` (no separator before the first or after the last),
the report has the lines of `take 3` one after the other; lists that agree on
their first three entries give the same output, and the empty list renders as
no entry at all. -/
theorem top_three (L : GoLib) (drivers : List DriverStanding) (teams : List TeamStanding) :
    slackDrivers L (.ok drivers) =
      "Standings: ".toList
        ++ ", ".toList.intercalate ((drivers.take 3).map (slackDriverEntry L)) ++ "; ".toList ∧
    slackTeams L (.ok teams) =
      ", ".toList.intercalate ((teams.take 3).map (slackTeamEntry L)) ∧
    topicDrivers L (.ok drivers) =
      "Driver Standings:\n".toList ++ ((drivers.take 3).map (topicDriverEntry L)).flatten
        ++ "\n".toList ∧
    topicTeams L (.ok teams) =
      "Constructor Standings:\n".toList ++ ((teams.take 3).map (topicTeamEntry L)).flatten ∧
    (drivers.take 3).length = min 3 drivers.length ∧
    (teams.take 3).length = min 3 teams.length ∧
    (∀ (currentYear : Int) (next : NextRaceResult) (drivers' : List DriverStanding)
        (teams' : List TeamStanding),
      drivers'.take 3 = drivers.take 3 → teams'.take 3 = teams.take 3 →
      SlackTopic L currentYear next (.ok drivers') (.ok teams') =
        SlackTopic L currentYear next (.ok drivers) (.ok teams) ∧
      Topic L currentYear next (.ok drivers') (.ok teams') =
        Topic L currentYear next (.ok drivers) (.ok teams)) ∧
    slackDrivers L (.ok []) = "Standings: ; ".toList ∧
    slackTeams L (.ok []) = [] ∧
    topicDrivers L (.ok []) = "Driver Standings:\n\n".toList ∧
    topicTeams L (.ok []) = "Constructor Standings:\n".toList := by
  have hsd : ∀ ds : List DriverStanding, slackDrivers L (.ok ds) =
      "Standings: ".toList
        ++ ", ".toList.intercalate ((ds.take 3).map (slackDriverEntry L)) ++ "; ".toList :=
    fun ds => by simp only [slackDrivers, slackDriversLoop_eq]
  have hst : ∀ ts : List TeamStanding, slackTeams L (.ok ts) =
      ", ".toList.intercalate ((ts.take 3).map (slackTeamEntry L)) :=
    fun ts => by simp only [slackTeams, slackTeamsLoop_eq, List.nil_append]
  have htd : ∀ ds : List DriverStanding, topicDrivers L (.ok ds) =
      "Driver Standings:\n".toList ++ ((ds.take 3).map (topicDriverEntry L)).flatten
        ++ "\n".toList :=
    fun ds => by simp only [topicDrivers, topicDriversLoop_eq]
  have htt : ∀ ts : List TeamStanding, topicTeams L (.ok ts) =
      "Constructor Standings:\n".toList ++ ((ts.take 3).map (topicTeamEntry L)).flatten :=
    fun ts => by simp only [topicTeams, topicTeamsLoop_eq]
  refine ⟨hsd drivers, hst teams, htd drivers, htt teams, List.length_take _ _,
    List.length_take _ _, ?_, ?_, ?_, ?_, ?_⟩
  · intro currentYear next drivers' teams' hd ht
    simp only [SlackTopic, slackLine, Topic, hsd, hst, htd, htt, hd, ht, and_self]
  · rw [hsd]; rfl
  · rw [hst]; rfl
  · rw [htd]; rfl
  · rw [htt]; rfl

/-- C8 on an example: of the four sample drivers and four sample teams, the
first three are rendered, and the tables cut to three entries render the same. -/
theorem top_three_witness :
    slackDrivers demoLib (.ok sampleDrivers) =
      "Standings: :f1ln:NOR :gb: (62), :f1mv:VER :flag-nl: (61), :f1op:PIA :flag-au: (49); ".toList ∧
    slackTeams demoLib (.ok sampleTeams) =
      ":m1::f1tl:MCL (111), :f1tm:MER (75), :f1tr:RBR (61)".toList ∧
    SlackTopic demoLib 2025 (.error []) (.ok (sampleDrivers.take 3)) (.ok (sampleTeams.take 3)) =
      SlackTopic demoLib 2025 (.error []) (.ok sampleDrivers) (.ok sampleTeams) :=
  ⟨by decide, by decide,
   ((top_three demoLib sampleDrivers sampleTeams).2.2.2.2.2.2.1 2025 (.error [])
      (sampleDrivers.take 3) (sampleTeams.take 3) (by decide) (by decide)).1⟩

/-! ## Theorems: the compact line when fetches fail -/

/-- C10, the behaviour of the code: when the team fetch fails, whatever the
other two fetches return, the assembled line ends with
`"No constructor data //  // Fantasy: "` and the code, two separators around an
empty segment, and so does not end with
`"No constructor data // Fantasy: "` and the code; with all three fetches
failed in 2025, `SlackTopic` returns the line displayed. -/
theorem slackLine_team_failure (L : GoLib) (currentYear : Int) (next : NextRaceResult)
    (drivers : DriversResult) (err : Str) :
    "No constructor data //  // Fantasy: `C14SOD0WQ01`".toList <:+
      slackLine L currentYear next drivers (.error err) ∧
    ¬ "No constructor data // Fantasy: `C14SOD0WQ01`".toList <:+
      slackLine L currentYear next drivers (.error err) ∧
    SlackTopic L 2025 (.error err) (.error err) (.error err) =
      (":f1: 2025 Next: No upcoming races // Standings: No data // "
        ++ "No constructor data //  // Fantasy: `C14SOD0WQ01`").toList := by
  have hsuf : "No constructor data //  // Fantasy: `C14SOD0WQ01`".toList <:+
      slackLine L currentYear next drivers (.error err) := by
    refine ⟨":f1: ".toList ++ fmtInt currentYear ++ " ".toList ++ slackNextRace L next
      ++ slackDrivers L drivers, ?_⟩
    simp only [slackLine, slackTeams, List.append_assoc]
    rfl
  refine ⟨hsuf, ?_, rfl⟩
  intro hbad
  have := List.suffix_of_suffix_length_le hbad hsuf (by decide)
  exact absurd this (by decide)

/-! ## Theorems: occurrences of a text in a concatenation -/

/-- An occurrence of `m` in `a ++ b` lies in `a`, lies in `b`, or straddles the
junction: a non-empty end of `a` followed by a non-empty start of `b`. -/
theorem infix_append_cases {α : Type} {m a b : List α} (h : m <:+: a ++ b) :
    m <:+: a ∨ m <:+: b ∨
      ∃ m1 m2, m = m1 ++ m2 ∧ m1 ≠ [] ∧ m2 ≠ [] ∧ m1 <:+ a ∧ m2 <+: b := by
  obtain ⟨p, q, hpq⟩ := h
  rw [List.append_assoc] at hpq
  rcases List.append_eq_append_iff.mp hpq with ⟨a', ha, hb⟩ | ⟨c', hp, hm⟩
  · rcases List.append_eq_append_iff.mp hb with ⟨x, hx, _⟩ | ⟨y, hy, hq⟩
    · left
      exact ⟨p, x, by rw [ha, hx, List.append_assoc]⟩
    · by_cases ha0 : a' = []
      · subst ha0
        right; left
        exact ⟨[], q, by simp at hy; simp [hq, hy]⟩
      · by_cases hy0 : y = []
        · subst hy0
          left
          exact ⟨p, [], by simp at hy; simp [ha, hy]⟩
        · right; right
          exact ⟨a', y, hy, ha0, hy0, ⟨p, ha.symm⟩, ⟨q, hq.symm⟩⟩
  · right; left
    exact ⟨c', q, by rw [hm, List.append_assoc]⟩

/-- A byte that does not occur in `m` cuts the search for `m` in two. -/
theorem infix_append_cons_of_not_mem {m a b : List Char} {c : Char} (hm : m ≠ [])
    (hc : c ∉ m) : m <:+: a ++ c :: b ↔ m <:+: a ∨ m <:+: b := by
  constructor
  · intro h
    rcases infix_append_cases h with h | h | ⟨m1, m2, hm12, _, h2, _, hpre⟩
    · exact Or.inl h
    · rcases List.infix_cons_iff.mp h with h | h
      · rcases List.prefix_cons_iff.mp h with h | ⟨t, ht, _⟩
        · exact absurd h hm
        · exact absurd (by rw [ht]; exact List.mem_cons_self _ _) hc
      · exact Or.inr h
    · rcases List.prefix_cons_iff.mp hpre with h | ⟨t, ht, _⟩
      · exact absurd h h2
      · exact absurd (by rw [hm12, ht]; simp) hc
  · rintro (h | h)
    · exact h.trans (List.infix_append' [] a (c :: b))
    · exact h.trans ⟨a ++ [c], [], by simp⟩

/-- A text ending in `x`, where `x` occurs nowhere else in it, is found in
`a ++ x :: b` either ending at the displayed `x` or after it. -/
theorem infix_append_cons_last {w a b : List Char} {x : Char} (hx : x ∉ w) :
    w ++ [x] <:+: a ++ x :: b ↔ w ++ [x] <:+: a ++ [x] ∨ w ++ [x] <:+: b := by
  constructor
  · intro h
    rcases infix_append_cases h with h | h | ⟨m1, m2, hm12, h1, h2, hsuf, hpre⟩
    · exact Or.inl (h.trans ⟨[], [x], by simp⟩)
    · rcases List.infix_cons_iff.mp h with h | h
      · rcases List.prefix_cons_iff.mp h with h | ⟨t, ht, _⟩
        · exact absurd h (by simp)
        · cases w with
          | nil => exact Or.inl ⟨a, [], by simp⟩
          | cons u w' =>
            simp only [List.cons_append, List.cons.injEq] at ht
            exact absurd (by rw [ht.1]; exact List.mem_cons_self _ _) hx
      · exact Or.inr h
    · rcases List.prefix_cons_iff.mp hpre with h | ⟨t, ht, _⟩
      · exact absurd h h2
      · subst ht
        -- `w ++ [x] = m1 ++ x :: t` with `x ∉ w` forces `m1 = w`
        rcases List.append_eq_append_iff.mp hm12 with ⟨a', ha', hb'⟩ | ⟨c', hc', hd'⟩
        · -- `m1 = w ++ a'`, `[x] = a' ++ x :: t`
          cases a' with
          | nil =>
            simp at ha'
            subst ha'
            obtain ⟨p, hp⟩ := hsuf
            exact Or.inl ⟨p, [], by simp [← hp]⟩
          | cons u a'' =>
            simp only [List.cons_append, List.cons.injEq] at hb'
            have : (a'' ++ x :: t).length = 0 := by rw [← hb'.2]; rfl
            simp at this
        · -- `w = m1 ++ c'`, `x :: t = c' ++ [x]`
          cases c' with
          | nil =>
            simp at hc'
            subst hc'
            obtain ⟨p, hp⟩ := hsuf
            exact Or.inl ⟨p, [], by simp [← hp]⟩
          | cons u c'' =>
            simp only [List.cons_append, List.cons.injEq] at hd'
            exact absurd (by rw [hc', hd'.1]; simp) hx
  · rintro (h | h)
    · exact h.trans ⟨[], b, by simp⟩
    · exact h.trans ⟨a ++ [x], [], by simp⟩

/-- A text ending in `x` is found in `a ++ b`, where `b` has no `x`, only
inside `a`. -/
theorem infix_append_of_last_not_mem {w a b : List Char} {x : Char} (hb : x ∉ b) :
    w ++ [x] <:+: a ++ b ↔ w ++ [x] <:+: a := by
  constructor
  · intro h
    rcases infix_append_cases h with h | h | ⟨m1, m2, hm12, _, h2, _, hpre⟩
    · exact h
    · exact absurd (h.subset (by simp)) hb
    · have hlast : x ∈ m2 := by
        rcases List.eq_nil_or_concat m2 with h | ⟨l, y, hy⟩
        · exact absurd h h2
        · have : w ++ [x] = (m1 ++ l) ++ [y] := by rw [hm12, hy]; simp
          have := List.append_inj_right' this rfl
          simp at this
          rw [hy, this]; simp
      exact absurd (hpre.subset hlast) hb
  · intro h
    exact h.trans ⟨[], b, by simp⟩

/-- A non-empty text that does not start with `c` is found in `c :: b` only
inside `b`. -/
theorem infix_cons_of_head_ne {m b : List Char} {c : Char} (hm : m.head? ≠ some c)
    (hne : m ≠ []) : m <:+: c :: b ↔ m <:+: b := by
  constructor
  · intro h
    rcases List.infix_cons_iff.mp h with h | h
    · rcases List.prefix_cons_iff.mp h with h | ⟨t, ht, _⟩
      · exact absurd h hne
      · exact absurd (by rw [ht]; rfl) hm
    · exact h
  · intro h
    exact h.trans ⟨[c], [], by simp⟩

/-! ## Theorems: the sections of the report -/

/-- The model of `strings.Contains` decides the infix relation. -/
theorem Contains_eq_true_iff : ∀ (s m : Str), Contains s m = true ↔ m <:+: s
  | [], m => by simp [Contains, List.isEmpty_iff]
  | c :: s, m => by
    rw [Contains, Bool.or_eq_true, Contains_eq_true_iff s m, List.infix_cons_iff, HasPrefix,
      List.isPrefixOf_iff_prefix]

/-- The shape shared by the six section texts: a non-empty text without colon,
line feed, parenthesis, full stop or hyphen, that does not start with a space,
followed by a colon. -/
theorem marker_shape (m : Str) (hm : m ∈ topicMarkers) :
    ∃ w : Str, m = w ++ [':'] ∧ ':' ∉ w ∧ w.head? ≠ some ' ' ∧ w ≠ [] ∧
      '\n' ∉ w ∧ '(' ∉ w ∧ ')' ∉ w ∧ '.' ∉ w ∧ '-' ∉ w := by
  simp only [topicMarkers, List.mem_cons, List.mem_singleton, List.not_mem_nil, or_false] at hm
  rcases hm with rfl | rfl | rfl | rfl | rfl | rfl
  · exact ⟨"Next Race".toList, by decide⟩
  · exact ⟨"Next race".toList, by decide⟩
  · exact ⟨"Driver Standings".toList, by decide⟩
  · exact ⟨"Driver standings error".toList, by decide⟩
  · exact ⟨"Constructor Standings".toList, by decide⟩
  · exact ⟨"Constructor standings error".toList, by decide⟩

/-- A section text does not occur in a text without colon. -/
theorem marker_not_infix_of_no_colon {m s : Str} (hm : m ∈ topicMarkers) (hs : ':' ∉ s) :
    ¬ m <:+: s := by
  obtain ⟨w, rfl, -⟩ := marker_shape m hm
  intro h
  exact hs (h.subset (by simp))

/-- A section text occurs in `a ++ b`, where `b` has no colon, only inside `a`. -/
theorem marker_infix_append_no_colon {m a b : Str} (hm : m ∈ topicMarkers) (hb : ':' ∉ b) :
    m <:+: a ++ b ↔ m <:+: a := by
  obtain ⟨w, rfl, -⟩ := marker_shape m hm
  exact infix_append_of_last_not_mem hb

/-- A section text does not cross a line feed, a parenthesis, a full stop or a
hyphen. -/
theorem marker_infix_append_sep {m a b : Str} {c : Char} (hm : m ∈ topicMarkers)
    (hc : c = '\n' ∨ c = '(' ∨ c = ')' ∨ c = '.' ∨ c = '-') :
    m <:+: a ++ c :: b ↔ m <:+: a ∨ m <:+: b := by
  obtain ⟨w, rfl, _, _, _, h1, h2, h3, h4, h5⟩ := marker_shape m hm
  apply infix_append_cons_of_not_mem (by simp)
  rcases hc with rfl | rfl | rfl | rfl | rfl <;> simp [*]

/-- A section text does not start at a separator or at a space. -/
theorem marker_infix_cons {m b : Str} {c : Char} (hm : m ∈ topicMarkers)
    (hc : c = '\n' ∨ c = '(' ∨ c = ')' ∨ c = '.' ∨ c = '-' ∨ c = ' ') :
    m <:+: c :: b ↔ m <:+: b := by
  obtain ⟨w, rfl, _, h0, hne, h1, h2, h3, h4, h5⟩ := marker_shape m hm
  apply infix_cons_of_head_ne _ (by simp)
  cases w with
  | nil => exact absurd rfl hne
  | cons u w' =>
    simp only [List.mem_cons, not_or] at h1 h2 h3 h4 h5
    simp only [List.head?_cons, ne_eq, Option.some.injEq] at h0
    simp only [List.cons_append, List.head?_cons, ne_eq, Option.some.injEq]
    rcases hc with rfl | rfl | rfl | rfl | rfl | rfl
    · exact fun h => h1.1 h.symm
    · exact fun h => h2.1 h.symm
    · exact fun h => h3.1 h.symm
    · exact fun h => h4.1 h.symm
    · exact fun h => h5.1 h.symm
    · exact h0

/-- A section text occurs in `a ++ ':' :: b` either ending at the displayed
colon or after it. -/
theorem marker_infix_append_colon {m a b : Str} (hm : m ∈ topicMarkers) :
    m <:+: a ++ ':' :: b ↔ m <:+: a ++ [':'] ∨ m <:+: b := by
  obtain ⟨w, rfl, hw, -⟩ := marker_shape m hm
  exact infix_append_cons_last hw

/-- Occurrences of a section text in a line `pre: body` followed by a line feed
and more text. -/
theorem marker_infix_line {m : Str} (hm : m ∈ topicMarkers) (pre body rest : Str) :
    m <:+: pre ++ ':' :: ' ' :: (body ++ '\n' :: rest) ↔
      m <:+: pre ++ [':'] ∨ m <:+: body ∨ m <:+: rest := by
  rw [marker_infix_append_colon hm, marker_infix_cons hm (c := ' ') (by simp),
    marker_infix_append_sep hm (a := body) (c := '\n') (by simp)]

/-- A text free of section texts contains none of them. -/
theorem not_infix_of_markerFree {m s : Str} (hm : m ∈ topicMarkers) (hs : markerFree s = true) :
    ¬ m <:+: s := by
  rw [← Contains_eq_true_iff]
  simp only [markerFree, List.all_eq_true, Bool.not_eq_true'] at hs
  simp [hs m hm]

/-- Among the fixed line starts of the report, a section text occurs only in
itself. -/
theorem marker_infix_fixed (m : Str) (hm : m ∈ topicMarkers) :
    (m <:+: "Next Race".toList ++ [':'] ↔ m = nextHeading) ∧
    (m <:+: "Next race".toList ++ [':'] ↔ m = nextErrorText) ∧
    (m <:+: "Driver Standings".toList ++ [':'] ↔ m = driversHeading) ∧
    (m <:+: "Driver standings error".toList ++ [':'] ↔ m = driversErrorText) ∧
    (m <:+: "Constructor Standings".toList ++ [':'] ↔ m = teamsHeading) ∧
    (m <:+: "Constructor standings error".toList ++ [':'] ↔ m = teamsErrorText) ∧
    ¬ m <:+: "Circuit".toList ++ [':'] ∧
    ¬ m <:+: "Date".toList ++ [':'] ∧
    ¬ m <:+: "Country".toList ++ [':'] := by
  simp only [← Contains_eq_true_iff]
  revert m
  decide

/-- The digits of a number contain no colon. -/
theorem colon_not_mem_toDigitsCore : ∀ (fuel n : Nat) (ds : List Char), ':' ∉ ds →
    ':' ∉ Nat.toDigitsCore 10 fuel n ds
  | 0, _, ds, h => by simpa [Nat.toDigitsCore] using h
  | fuel + 1, n, ds, h => by
    have hd : ':' ≠ Nat.digitChar (n % 10) := by
      have : ∀ k < 10, ':' ≠ Nat.digitChar k := by decide
      exact this _ (Nat.mod_lt _ (by decide))
    have hds : ':' ∉ Nat.digitChar (n % 10) :: ds := by
      simp only [List.mem_cons, not_or]
      exact ⟨hd, h⟩
    unfold Nat.toDigitsCore
    dsimp only
    split
    · exact hds
    · exact colon_not_mem_toDigitsCore fuel _ _ hds

/-- The rendering of an integer contains no colon. -/
theorem colon_not_mem_fmtInt (n : Int) : ':' ∉ fmtInt n := by
  cases n with
  | ofNat k => exact colon_not_mem_toDigitsCore _ _ _ (by simp)
  | negSucc k =>
    simp only [fmtInt, List.mem_cons, not_or]
    exact ⟨by decide, colon_not_mem_toDigitsCore _ _ _ (by simp)⟩

/-- Occurrences of a section text in the next-race section of the report,
followed by `rest`, when the variable texts of the section are clean. -/
theorem marker_infix_topicNextRace {m : Str} (hm : m ∈ topicMarkers) (L : GoLib)
    (next : NextRaceResult) (rest : Str) (hclean : nextTextsClean L next = true) :
    m <:+: topicNextRace L next ++ rest ↔
      m = (if succeeded next = true then nextHeading else nextErrorText) ∨ m <:+: rest := by
  obtain ⟨f1, f2, -, -, -, -, f7, f8, f9⟩ := marker_infix_fixed m hm
  match next with
  | .error err =>
    have e : topicNextRace L (.error err) ++ rest =
        "Next race".toList ++ ':' :: ' ' :: (err ++ '\n' :: ('\n' :: rest)) := by
      simp only [topicNextRace, List.append_assoc]; rfl
    have hfree : ¬ m <:+: err := not_infix_of_markerFree hm hclean
    rw [e, marker_infix_line hm, marker_infix_cons hm (c := '\n') (by decide), f2]
    simp only [succeeded, Bool.false_eq_true, if_false]
    tauto
  | .ok (nextRace, round) =>
    cases hd : L.parseDate nextRace.Schedule.Race.Date with
    | none =>
      have e : topicNextRace L (.ok (nextRace, round)) ++ rest =
          "Next Race".toList ++ ':' :: ' ' ::
            ("Unknown (date parsing error)".toList ++ '\n' :: ('\n' :: rest)) := by
        simp only [topicNextRace, hd, List.append_assoc]; rfl
      have hfree : ¬ m <:+: "Unknown (date parsing error)".toList :=
        marker_not_infix_of_no_colon hm (by decide)
      rw [e, marker_infix_line hm, marker_infix_cons hm (c := '\n') (by decide), f1]
      simp only [succeeded, if_true]
      tauto
    | some raceDate =>
      have e : topicNextRace L (.ok (nextRace, round)) ++ rest =
          "Next Race".toList ++ ':' :: ' ' ::
            ((nextRace.RaceName ++ (" (Round ".toList ++ fmtInt round ++ ")".toList)) ++ '\n' ::
              ("Circuit".toList ++ ':' :: ' ' :: (nextRace.Circuit.CircuitName ++ '\n' ::
                ("Date".toList ++ ':' :: ' ' ::
                  ((L.formatLongDate raceDate ++ topicTimeStr L nextRace) ++ '\n' ::
                    ("Country".toList ++ ':' :: ' ' ::
                      (nextRace.Country ++ '\n' :: ('\n' :: rest)))))))) := by
        simp only [topicNextRace, hd, List.append_assoc]; rfl
      have hround : ':' ∉ " (Round ".toList ++ fmtInt round ++ ")".toList := by
        simp only [List.mem_append, not_or]
        exact ⟨⟨by decide, colon_not_mem_fmtInt round⟩, by decide⟩
      simp only [nextTextsClean, hd, Bool.and_eq_true] at hclean
      obtain ⟨⟨⟨c1, c2⟩, c3⟩, c4⟩ := hclean
      have n1 := not_infix_of_markerFree hm c1
      have n2 := not_infix_of_markerFree hm c2
      have n3 := not_infix_of_markerFree hm c3
      have n4 := not_infix_of_markerFree hm c4
      rw [e, marker_infix_line hm, marker_infix_line hm, marker_infix_line hm,
        marker_infix_line hm, marker_infix_cons hm (c := '\n') (by decide),
        marker_infix_append_no_colon hm hround, f1]
      simp only [succeeded, if_true]
      tauto

/-- A section text does not occur in a sequence of entries none of which lets
it in. -/
theorem marker_infix_entries {m : Str} {α : Type} (entry : α → Str) :
    ∀ (l : List α) (rest : Str),
      (∀ x ∈ l, ∀ r, (m <:+: entry x ++ r ↔ m <:+: r)) →
      (m <:+: (l.map entry).flatten ++ rest ↔ m <:+: rest)
  | [], rest, _ => by simp
  | x :: l, rest, h => by
    simp only [List.map_cons, List.flatten_cons, List.append_assoc]
    rw [h x (List.mem_cons_self _ _),
      marker_infix_entries entry l rest (fun y hy => h y (List.mem_cons_of_mem _ hy))]

/-- A driver line of the report with clean texts lets no section text in. -/
theorem marker_infix_topicDriverEntry {m : Str} (hm : m ∈ topicMarkers) (L : GoLib)
    (d : DriverStanding) (rest : Str)
    (hclean : (markerFree (d.Driver.Name ++ " ".toList ++ d.Driver.Surname)
      && markerFree d.Team.TeamName && markerFree (L.fmtF1 d.Points)) = true) :
    m <:+: topicDriverEntry L d ++ rest ↔ m <:+: rest := by
  have e : topicDriverEntry L d ++ rest =
      fmtInt d.Position ++ '.' :: ' ' ::
        (((d.Driver.Name ++ " ".toList ++ d.Driver.Surname) ++ [' ']) ++ '(' ::
          (d.Team.TeamName ++ ')' :: ' ' :: '-' :: ' ' ::
            ((L.fmtF1 d.Points ++ " points".toList) ++ '\n' :: rest))) := by
    simp only [topicDriverEntry, List.append_assoc]; rfl
  simp only [Bool.and_eq_true] at hclean
  obtain ⟨⟨c1, c2⟩, c3⟩ := hclean
  have n0 : ¬ m <:+: fmtInt d.Position :=
    marker_not_infix_of_no_colon hm (colon_not_mem_fmtInt _)
  have n1 := not_infix_of_markerFree hm c1
  have n2 := not_infix_of_markerFree hm c2
  have n3 := not_infix_of_markerFree hm c3
  rw [e, marker_infix_append_sep hm (c := '.') (by decide),
    marker_infix_cons hm (c := ' ') (by decide),
    marker_infix_append_sep hm (c := '(') (by decide),
    marker_infix_append_no_colon hm (b := [' ']) (by decide),
    marker_infix_append_sep hm (c := ')') (by decide),
    marker_infix_cons hm (c := ' ') (by decide),
    marker_infix_cons hm (c := '-') (by decide),
    marker_infix_cons hm (c := ' ') (by decide),
    marker_infix_append_sep hm (c := '\n') (by decide),
    marker_infix_append_no_colon hm (b := " points".toList) (by decide)]
  tauto

/-- A constructor line of the report with clean texts lets no section text in. -/
theorem marker_infix_topicTeamEntry {m : Str} (hm : m ∈ topicMarkers) (L : GoLib)
    (t : TeamStanding) (rest : Str)
    (hclean : (markerFree t.Team.TeamName && markerFree (L.fmtF1 t.Points)) = true) :
    m <:+: topicTeamEntry L t ++ rest ↔ m <:+: rest := by
  have e : topicTeamEntry L t ++ rest =
      fmtInt t.Position ++ '.' :: ' ' ::
        ((t.Team.TeamName ++ [' ']) ++ '-' :: ' ' ::
          ((L.fmtF1 t.Points ++ " points".toList) ++ '\n' :: rest)) := by
    simp only [topicTeamEntry, List.append_assoc]; rfl
  simp only [Bool.and_eq_true] at hclean
  obtain ⟨c1, c2⟩ := hclean
  have n0 : ¬ m <:+: fmtInt t.Position :=
    marker_not_infix_of_no_colon hm (colon_not_mem_fmtInt _)
  have n1 := not_infix_of_markerFree hm c1
  have n2 := not_infix_of_markerFree hm c2
  rw [e, marker_infix_append_sep hm (c := '.') (by decide),
    marker_infix_cons hm (c := ' ') (by decide),
    marker_infix_append_sep hm (c := '-') (by decide),
    marker_infix_append_no_colon hm (b := [' ']) (by decide),
    marker_infix_cons hm (c := ' ') (by decide),
    marker_infix_append_sep hm (c := '\n') (by decide),
    marker_infix_append_no_colon hm (b := " points".toList) (by decide)]
  tauto

/-- Occurrences of a section text in the driver section of the report, followed
by `rest`, when the variable texts of the section are clean. -/
theorem marker_infix_topicDrivers {m : Str} (hm : m ∈ topicMarkers) (L : GoLib)
    (drivers : DriversResult) (rest : Str) (hclean : driversTextsClean L drivers = true) :
    m <:+: topicDrivers L drivers ++ rest ↔
      m = (if succeeded drivers = true then driversHeading else driversErrorText) ∨
        m <:+: rest := by
  obtain ⟨-, -, f3, f4, -, -, -, -, -⟩ := marker_infix_fixed m hm
  match drivers with
  | .error err =>
    have e : topicDrivers L (.error err) ++ rest =
        "Driver standings error".toList ++ ':' :: ' ' :: (err ++ '\n' :: ('\n' :: rest)) := by
      simp only [topicDrivers, List.append_assoc]; rfl
    have hfree : ¬ m <:+: err := not_infix_of_markerFree hm hclean
    rw [e, marker_infix_line hm, marker_infix_cons hm (c := '\n') (by decide), f4]
    simp only [succeeded, Bool.false_eq_true, if_false]
    tauto
  | .ok ds =>
    have e : topicDrivers L (.ok ds) ++ rest =
        "Driver Standings".toList ++ ':' :: ('\n' ::
          (((ds.take 3).map (topicDriverEntry L)).flatten ++ ('\n' :: rest))) := by
      simp only [topicDrivers, topicDriversLoop_eq, List.append_assoc]; rfl
    simp only [driversTextsClean, List.all_eq_true] at hclean
    rw [e, marker_infix_append_colon hm, marker_infix_cons hm (c := '\n') (by decide),
      marker_infix_entries (topicDriverEntry L) _ _
        (fun d hd r => marker_infix_topicDriverEntry hm L d r (hclean d hd)),
      marker_infix_cons hm (c := '\n') (by decide), f3]
    simp only [succeeded, if_true]

/-- Occurrences of a section text in the constructor section of the report,
followed by `rest`, when the variable texts of the section are clean. -/
theorem marker_infix_topicTeams {m : Str} (hm : m ∈ topicMarkers) (L : GoLib)
    (teams : TeamsResult) (rest : Str) (hclean : teamsTextsClean L teams = true) :
    m <:+: topicTeams L teams ++ rest ↔
      m = (if succeeded teams = true then teamsHeading else teamsErrorText) ∨ m <:+: rest := by
  obtain ⟨-, -, -, -, f5, f6, -, -, -⟩ := marker_infix_fixed m hm
  match teams with
  | .error err =>
    have e : topicTeams L (.error err) ++ rest =
        "Constructor standings error".toList ++ ':' :: ' ' :: (err ++ '\n' :: rest) := by
      simp only [topicTeams, List.append_assoc]; rfl
    have hfree : ¬ m <:+: err := not_infix_of_markerFree hm hclean
    rw [e, marker_infix_line hm, f6]
    simp only [succeeded, Bool.false_eq_true, if_false]
    tauto
  | .ok ts =>
    have e : topicTeams L (.ok ts) ++ rest =
        "Constructor Standings".toList ++ ':' :: ('\n' ::
          (((ts.take 3).map (topicTeamEntry L)).flatten ++ rest)) := by
      simp only [topicTeams, topicTeamsLoop_eq, List.append_assoc]; rfl
    simp only [teamsTextsClean, List.all_eq_true] at hclean
    rw [e, marker_infix_append_colon hm, marker_infix_cons hm (c := '\n') (by decide),
      marker_infix_entries (topicTeamEntry L) _ _
        (fun t ht r => marker_infix_topicTeamEntry hm L t r (hclean t ht)), f5]
    simp only [succeeded, if_true]

/-- With clean variable texts, the section texts that occur in the report are
exactly the three that the outcomes of the fetches select. -/
theorem marker_infix_Topic {m : Str} (hm : m ∈ topicMarkers) (L : GoLib) (currentYear : Int)
    (next : NextRaceResult) (drivers : DriversResult) (teams : TeamsResult)
    (h1 : nextTextsClean L next = true) (h2 : driversTextsClean L drivers = true)
    (h3 : teamsTextsClean L teams = true) :
    m <:+: Topic L currentYear next drivers teams ↔
      m = (if succeeded next = true then nextHeading else nextErrorText) ∨
      m = (if succeeded drivers = true then driversHeading else driversErrorText) ∨
      m = (if succeeded teams = true then teamsHeading else teamsErrorText) := by
  have e : Topic L currentYear next drivers teams =
      ("F1 Data for ".toList ++ fmtInt currentYear) ++ '\n' :: ('\n' ::
        (topicNextRace L next ++ (topicDrivers L drivers ++ (topicTeams L teams ++ [])))) := by
    simp only [Topic, List.append_assoc, List.append_nil]; rfl
  have hhead : ¬ m <:+: "F1 Data for ".toList ++ fmtInt currentYear := by
    apply marker_not_infix_of_no_colon hm
    simp only [List.mem_append, not_or]
    exact ⟨by decide, colon_not_mem_fmtInt _⟩
  have hnil : ¬ m <:+: [] := marker_not_infix_of_no_colon hm (by simp)
  rw [e, marker_infix_append_sep hm (c := '\n') (by decide),
    marker_infix_cons hm (c := '\n') (by decide), marker_infix_topicNextRace hm L next _ h1,
    marker_infix_topicDrivers hm L drivers _ h2, marker_infix_topicTeams hm L teams _ h3]
  tauto

/-- Each section of the report starts with the text that the outcome of its
fetch selects. -/
theorem topic_sections_start (L : GoLib) (next : NextRaceResult) (drivers : DriversResult)
    (teams : TeamsResult) :
    (if succeeded next = true then nextHeading else nextErrorText) <+: topicNextRace L next ∧
    (if succeeded drivers = true then driversHeading else driversErrorText) <+:
      topicDrivers L drivers ∧
    (if succeeded teams = true then teamsHeading else teamsErrorText) <+: topicTeams L teams := by
  refine ⟨?_, ?_, ?_⟩
  · match next with
    | .error err =>
      exact ⟨' ' :: (err ++ "\n\n".toList), by simp only [topicNextRace, List.append_assoc]; rfl⟩
    | .ok (nextRace, round) =>
      cases hd : L.parseDate nextRace.Schedule.Race.Date with
      | none =>
        exact ⟨" Unknown (date parsing error)\n\n".toList, by simp only [topicNextRace, hd]; rfl⟩
      | some raceDate =>
        exact ⟨_, by simp only [topicNextRace, hd, List.append_assoc]; rfl⟩
  · match drivers with
    | .error err =>
      exact ⟨' ' :: (err ++ "\n\n".toList), by simp only [topicDrivers, List.append_assoc]; rfl⟩
    | .ok ds =>
      exact ⟨_, by simp only [topicDrivers, topicDriversLoop_eq, List.append_assoc]; rfl⟩
  · match teams with
    | .error err =>
      exact ⟨' ' :: (err ++ "\n".toList), by simp only [topicTeams, List.append_assoc]; rfl⟩
    | .ok ts =>
      exact ⟨_, by simp only [topicTeams, topicTeamsLoop_eq, List.append_assoc]; rfl⟩

set_option maxRecDepth 100000 in
/-- C9, as stated, fails: when the next-race fetch fails with an upstream
message that itself carries `"Next Race:"`, the report contains both the error
text `"Next race:"` and the heading `"Next Race:"` of the section.  (All three
fetches fail here, so no library function is called.) -/
theorem Topic_sections_both_texts :
    Topic demoLib 2025 (.error "no data found: Next Race: not scheduled".toList)
        (.error "no data found: off season".toList) (.error "no data found: off season".toList) =
      ("F1 Data for 2025\n\nNext race: no data found: Next Race: not scheduled\n\n"
        ++ "Driver standings error: no data found: off season\n\n"
        ++ "Constructor standings error: no data found: off season\n").toList ∧
    Contains (Topic demoLib 2025 (.error "no data found: Next Race: not scheduled".toList)
        (.error "no data found: off season".toList) (.error "no data found: off season".toList))
      nextErrorText = true ∧
    Contains (Topic demoLib 2025 (.error "no data found: Next Race: not scheduled".toList)
        (.error "no data found: off season".toList) (.error "no data found: off season".toList))
      nextHeading = true := by
  decide

/-- C9, amended: for every one of the eight success/failure combinations of the
three fetches and every content of the fetched data and error messages, the
report is non-empty, contains the header `"F1 Data for <year>"` and, for each of
the three sections, contains its heading when that fetch succeeded and its
error text when it failed, independently of the other two fetches; and when
none of the six section texts occurs inside a variable text of the report (an
error message, the race name, the circuit name, the formatted date and time,
the country, and for each rendered driver or team the full name, the team name
and the formatted points), the report contains exactly one of the heading and
the error text of each section. -/
theorem Topic_sections (L : GoLib) (currentYear : Int) (next : NextRaceResult)
    (drivers : DriversResult) (teams : TeamsResult) :
    Topic L currentYear next drivers teams ≠ [] ∧
    Contains (Topic L currentYear next drivers teams)
      ("F1 Data for ".toList ++ fmtInt currentYear) = true ∧
    Contains (Topic L currentYear next drivers teams)
      (if succeeded next = true then nextHeading else nextErrorText) = true ∧
    Contains (Topic L currentYear next drivers teams)
      (if succeeded drivers = true then driversHeading else driversErrorText) = true ∧
    Contains (Topic L currentYear next drivers teams)
      (if succeeded teams = true then teamsHeading else teamsErrorText) = true ∧
    (nextTextsClean L next = true → driversTextsClean L drivers = true →
      teamsTextsClean L teams = true →
      (Contains (Topic L currentYear next drivers teams) nextHeading = true ↔
        succeeded next = true) ∧
      (Contains (Topic L currentYear next drivers teams) nextErrorText = true ↔
        succeeded next = false) ∧
      (Contains (Topic L currentYear next drivers teams) driversHeading = true ↔
        succeeded drivers = true) ∧
      (Contains (Topic L currentYear next drivers teams) driversErrorText = true ↔
        succeeded drivers = false) ∧
      (Contains (Topic L currentYear next drivers teams) teamsHeading = true ↔
        succeeded teams = true) ∧
      (Contains (Topic L currentYear next drivers teams) teamsErrorText = true ↔
        succeeded teams = false)) := by
  obtain ⟨⟨r1, hr1⟩, ⟨r2, hr2⟩, ⟨r3, hr3⟩⟩ := topic_sections_start L next drivers teams
  have hT : Topic L currentYear next drivers teams =
      "F1 Data for ".toList ++ fmtInt currentYear ++ "\n\n".toList ++ topicNextRace L next
        ++ topicDrivers L drivers ++ topicTeams L teams := rfl
  refine ⟨?_, ?_, ?_, ?_, ?_, ?_⟩
  · intro h
    have : (Topic L currentYear next drivers teams).length = 0 := by rw [h]; rfl
    rw [hT] at this
    simp only [List.length_append] at this
    have h12 : ("F1 Data for ".toList).length = 12 := by decide
    omega
  · rw [Contains_eq_true_iff, hT]
    exact ⟨[], "\n\n".toList ++ topicNextRace L next ++ topicDrivers L drivers
      ++ topicTeams L teams, by simp only [List.append_assoc, List.nil_append]⟩
  · rw [Contains_eq_true_iff, hT, ← hr1]
    exact ⟨"F1 Data for ".toList ++ fmtInt currentYear ++ "\n\n".toList,
      r1 ++ topicDrivers L drivers ++ topicTeams L teams, by simp only [List.append_assoc]⟩
  · rw [Contains_eq_true_iff, hT, ← hr2]
    exact ⟨"F1 Data for ".toList ++ fmtInt currentYear ++ "\n\n".toList ++ topicNextRace L next,
      r2 ++ topicTeams L teams, by simp only [List.append_assoc]⟩
  · rw [Contains_eq_true_iff, hT, ← hr3]
    exact ⟨"F1 Data for ".toList ++ fmtInt currentYear ++ "\n\n".toList ++ topicNextRace L next
      ++ topicDrivers L drivers, r3, by simp only [List.append_assoc]⟩
  · intro h1 h2 h3
    have key : ∀ m ∈ topicMarkers, (Contains (Topic L currentYear next drivers teams) m = true ↔
        m = (if succeeded next = true then nextHeading else nextErrorText) ∨
        m = (if succeeded drivers = true then driversHeading else driversErrorText) ∨
        m = (if succeeded teams = true then teamsHeading else teamsErrorText)) := by
      intro m hm
      rw [Contains_eq_true_iff]
      exact marker_infix_Topic hm L currentYear next drivers teams h1 h2 h3
    refine ⟨?_, ?_, ?_, ?_, ?_, ?_⟩
    · rw [key nextHeading (by decide)]
      cases succeeded next <;> cases succeeded drivers <;> cases succeeded teams <;> decide
    · rw [key nextErrorText (by decide)]
      cases succeeded next <;> cases succeeded drivers <;> cases succeeded teams <;> decide
    · rw [key driversHeading (by decide)]
      cases succeeded next <;> cases succeeded drivers <;> cases succeeded teams <;> decide
    · rw [key driversErrorText (by decide)]
      cases succeeded next <;> cases succeeded drivers <;> cases succeeded teams <;> decide
    · rw [key teamsHeading (by decide)]
      cases succeeded next <;> cases succeeded drivers <;> cases succeeded teams <;> decide
    · rw [key teamsErrorText (by decide)]
      cases succeeded next <;> cases succeeded drivers <;> cases succeeded teams <;> decide

/-- C9, amended, on an example: the sample race and teams with a failed driver
fetch; the variable texts are clean, and the report has the headings of the
race and constructor sections and the error text of the driver section only. -/
theorem Topic_sections_witness :
    nextTextsClean demoLib (.ok (sampleRace, 3)) = true ∧
    driversTextsClean demoLib (.error "no data found: off season".toList) = true ∧
    teamsTextsClean demoLib (.ok sampleTeams) = true ∧
    Contains (Topic demoLib 2025 (.ok (sampleRace, 3))
      (.error "no data found: off season".toList) (.ok sampleTeams)) driversErrorText = true ∧
    Contains (Topic demoLib 2025 (.ok (sampleRace, 3))
      (.error "no data found: off season".toList) (.ok sampleTeams)) driversHeading = false := by
  have h := (Topic_sections demoLib 2025 (.ok (sampleRace, 3))
    (.error "no data found: off season".toList) (.ok sampleTeams)).2.2.2.2.2
    (by decide) (by decide) (by decide)
  refine ⟨by decide, by decide, by decide, h.2.2.2.1.mpr rfl, ?_⟩
  have := h.2.2.1
  rw [Bool.eq_false_iff]
  exact fun hc => absurd (this.mp hc) (by decide)

/-! ## Theorems: the decision order of the fetchers -/

/-- The first test of the fetchers finds a message exactly on an error envelope. -/
theorem errorEnvelope_eq_none_iff (J : JsonLib) (body : Str) :
    errorEnvelope J body = none ↔ isErrorEnvelope J body = false := by
  unfold errorEnvelope isErrorEnvelope
  cases J.unmarshalErrorResponse body with
  | error e => simp
  | ok er =>
    by_cases h : er.Status ≥ 400
    · simp only [h, if_true]
      simp [ge_iff_le.mp h]
    · simp only [h, if_false]
      simp [not_le.mp h]

/-- The message found by the first test of the fetchers on an error envelope. -/
theorem errorEnvelope_of_status (J : JsonLib) (body : Str) (errorResp : ErrorResponse)
    (hparse : J.unmarshalErrorResponse body = .ok errorResp) (hstatus : 400 ≤ errorResp.Status) :
    errorEnvelope J body = some errorResp.Message := by
  unfold errorEnvelope
  rw [hparse]
  simp only [ge_iff_le, hstatus, if_true]

/-- C11: given a body that was read, `fetchNextRace` decides in this order.
If the body parses as an error envelope with status at least 400, it fails
with `"no data found: "` and the upstream message, whatever the success schema
would give on the same body.  Otherwise, if the body does not parse as the
success schema, it fails with the decode error.  Otherwise, if the race list
is empty, it fails with `"no upcoming races found"`.  Otherwise it succeeds
with the first race of the list and the round number of the envelope.  The
driver and team fetchers, past the same first test, return the decoded list as
a success, the empty list included. -/
theorem fetchNextRace_order (J : JsonLib) (body : Str) :
    (∀ errorResp, J.unmarshalErrorResponse body = .ok errorResp → 400 ≤ errorResp.Status →
      fetchNextRace J (.body body) = .error ("no data found: ".toList ++ errorResp.Message)) ∧
    (isErrorEnvelope J body = false →
      (∀ err, J.unmarshalNextRace body = .error err →
        fetchNextRace J (.body body) =
          .error ("error unmarshaling next race data: ".toList ++ err)) ∧
      (∀ nextRaceResp, J.unmarshalNextRace body = .ok nextRaceResp →
        nextRaceResp.Race = [] →
        fetchNextRace J (.body body) = .error "no upcoming races found".toList) ∧
      (∀ nextRaceResp race rest, J.unmarshalNextRace body = .ok nextRaceResp →
        nextRaceResp.Race = race :: rest →
        fetchNextRace J (.body body) = .ok (race, nextRaceResp.Round)) ∧
      (∀ driverResp, J.unmarshalDrivers body = .ok driverResp →
        fetchDriverStandings J (.body body) = .ok driverResp.DriversChampionship) ∧
      (∀ teamResp, J.unmarshalTeams body = .ok teamResp →
        fetchTeamStandings J (.body body) = .ok teamResp.ConstructorsChampionship) ∧
      (∀ driverResp, J.unmarshalDrivers body = .ok driverResp →
        driverResp.DriversChampionship = [] →
        fetchDriverStandings J (.body body) = .ok []) ∧
      (∀ teamResp, J.unmarshalTeams body = .ok teamResp →
        teamResp.ConstructorsChampionship = [] →
        fetchTeamStandings J (.body body) = .ok [])) := by
  refine ⟨?_, ?_⟩
  · intro errorResp hparse hstatus
    simp only [fetchNextRace, errorEnvelope_of_status J body errorResp hparse hstatus]
  · intro hno
    have henv : errorEnvelope J body = none := (errorEnvelope_eq_none_iff J body).mpr hno
    have hd : ∀ driverResp, J.unmarshalDrivers body = .ok driverResp →
        fetchDriverStandings J (.body body) = .ok driverResp.DriversChampionship := by
      intro driverResp hparse
      simp only [fetchDriverStandings, henv, hparse]
    have ht : ∀ teamResp, J.unmarshalTeams body = .ok teamResp →
        fetchTeamStandings J (.body body) = .ok teamResp.ConstructorsChampionship := by
      intro teamResp hparse
      simp only [fetchTeamStandings, henv, hparse]
    refine ⟨?_, ?_, ?_, hd, ht, ?_, ?_⟩
    · intro err hparse
      simp only [fetchNextRace, henv, hparse]
    · intro nextRaceResp hparse hempty
      simp only [fetchNextRace, henv, hparse, hempty, List.length_nil, dite_true]
    · intro nextRaceResp race rest hparse hcons
      simp only [fetchNextRace, henv, hparse]
      have hne : ¬ nextRaceResp.Race.length = 0 := by rw [hcons]; simp
      rw [dif_neg hne]
      congr 2
      simp [hcons]
    · intro driverResp hparse hempty
      rw [hd driverResp hparse, hempty]
    · intro teamResp hparse hempty
      rw [ht teamResp hparse, hempty]

set_option maxRecDepth 100000 in
/-- C11 on examples: the sample error body also parses as the success schema
(with an empty race list), and `fetchNextRace` reports the upstream message,
not the empty list; the body with an empty race list fails; the sample race
body succeeds with `sampleRace` and round 3; the body with empty tables is a
success of the driver fetcher. -/
theorem fetchNextRace_order_witness :
    demoJson.unmarshalNextRace sampleErrorBody = .ok {} ∧
    fetchNextRace demoJson (.body sampleErrorBody) =
      .error "no data found: No races found".toList ∧
    isErrorEnvelope demoJson sampleNoRaceBody = false ∧
    fetchNextRace demoJson (.body sampleNoRaceBody) = .error "no upcoming races found".toList ∧
    fetchNextRace demoJson (.body sampleRaceBody) = .ok (sampleRace, 3) ∧
    fetchDriverStandings demoJson (.body sampleNoStandingsBody) = .ok [] :=
  ⟨rfl,
   (fetchNextRace_order demoJson sampleErrorBody).1
     { Message := "No races found".toList, Status := 404 } rfl (by decide),
   rfl,
   ((fetchNextRace_order demoJson sampleNoRaceBody).2 rfl).2.1 {} rfl rfl,
   ((fetchNextRace_order demoJson sampleRaceBody).2 rfl).2.2.1
     { Round := 3, Race := [sampleRace] } sampleRace [] rfl rfl,
   ((fetchNextRace_order demoJson sampleNoStandingsBody).2 rfl).2.2.2.2.2.1 {} rfl rfl⟩

/-! ## Theorems: the fallback entry of the team table -/

set_option maxRecDepth 100000 in
/-- C12, the behaviour of the code: `"unknown"` is not a key of `teamEmojis`,
so the fallback `teamEmojis["unknown"]` is the zero value, a pair of empty
strings.  Every team entry is the pair of its id followed by the points when
the id is a key, and the bare `" (<points>)"` when it is not: the entry of the
team id `"cadillac"` carries neither emoji nor abbreviation, and a table with
that single team renders as `" (12)"`. -/
theorem slackTeamEntry_unknown (L : GoLib) (team : TeamStanding) (points : Float64) :
    mapGet teamEmojis "unknown".toList = none ∧
    slackTeamEntry L team =
      (match mapGet teamEmojis team.TeamID with
       | some info => info.1 ++ info.2 ++ " (".toList ++ L.fmtF0 team.Points ++ ")".toList
       | none => " (".toList ++ L.fmtF0 team.Points ++ ")".toList) ∧
    mapGet teamEmojis "cadillac".toList = none ∧
    slackTeamEntry L { TeamID := "cadillac".toList, Points := points } =
      " (".toList ++ L.fmtF0 points ++ ")".toList ∧
    slackTeams demoLib (.ok [sampleTeam "cadillac" "Cadillac" 1 12]) = " (12)".toList ∧
    SlackTopic demoLib 2025 (.ok (sampleRace, 3)) (.ok sampleDrivers)
        (.ok [sampleTeam "cadillac" "Cadillac" 1 12]) =
      (":f1: 2025 Next: R3/24 Japan :flag-jp: (Apr 4-6) // Standings: :f1ln:NOR :gb: (62), "
        ++ ":f1mv:VER :flag-nl: (61), :f1op:PIA :flag-au: (49);  (12) // "
        ++ "Fantasy: `C14SOD0WQ01`").toList := by
  have hunknown : mapGet teamEmojis "unknown".toList = none := by decide
  refine ⟨hunknown, ?_, by decide, ?_, by decide, by decide⟩
  · unfold slackTeamEntry
    rw [hunknown]
    cases mapGet teamEmojis team.TeamID <;> rfl
  · unfold slackTeamEntry
    rw [hunknown]
    have : mapGet teamEmojis "cadillac".toList = none := by decide
    simp only [this]
    rfl

end F1Topic
